import Mathlib

/-!
# Upload handlers of the video service

A shallow embedding of `handlerUploadThumbnail` (handler_upload_thumbnail.go) and
`handlerUploadVideo` (handler_upload_video.go).

Each handler is a function from the request and the state of the world (local
filesystem, record store, blob store, and a log of the calls made to them) to the
response written and the new state of the world.  The collaborators that are not
part of the two source files (UUID parsing, bearer-token extraction, JWT
validation, media-type parsing, content sniffing, the random source, and the
outcomes of the fallible system calls) are fields of `Env`.
-/

namespace Tubely

/-- Byte of Go: an unsigned 8-bit value. -/
abbrev Byte := Fin 256

/-- Identifier `uuid.UUID`, a 128-bit value. -/
abbrev UUID := Nat

/-! ## `encoding/hex` and `encoding/base64` -/

/-- Alphabet of `hex.EncodeToString`. -/
def hextable : List Char := "0123456789abcdef".toList

/-- Character `hextable[n]`. -/
def hexDigit (n : Nat) : Char := hextable.getD n '0'

/-- Loop of `hex.Encode`: every byte `v` yields `hextable[v>>4]`, `hextable[v&0x0f]`. -/
def hexEncode : List Byte → List Char
  | [] => []
  | v :: rest => hexDigit (v.val / 16) :: hexDigit (v.val % 16) :: hexEncode rest

/-- Function `hex.EncodeToString`. -/
def hexEncodeToString (src : List Byte) : String := String.mk (hexEncode src)

/-- Alphabet of `base64.URLEncoding` and `base64.RawURLEncoding`. -/
def encodeURL : List Char :=
  "ABCDEFGHIJKLMNOPQRSTUVWXYZabcdefghijklmnopqrstuvwxyz0123456789-_".toList

/-- Character `enc.encode[n]` of the URL-safe alphabet. -/
def b64Char (n : Nat) : Char := encodeURL.getD n 'A'

/-- Loop of `(*Encoding).Encode` for `RawURLEncoding` (no padding): three bytes form
the 24-bit value `b0<<16 | b1<<8 | b2`, emitted as the four 6-bit groups
`val>>18&0x3F`, `val>>12&0x3F`, `val>>6&0x3F`, `val&0x3F`; a remainder of two bytes
emits three characters and a remainder of one byte emits two. -/
def b64Encode : List Byte → List Char
  | b0 :: b1 :: b2 :: rest =>
      let val := b0.val * 65536 + b1.val * 256 + b2.val
      b64Char (val / 262144 % 64) :: b64Char (val / 4096 % 64) ::
        b64Char (val / 64 % 64) :: b64Char (val % 64) :: b64Encode rest
  | [b0, b1] =>
      let val := b0.val * 65536 + b1.val * 256
      [b64Char (val / 262144 % 64), b64Char (val / 4096 % 64), b64Char (val / 64 % 64)]
  | [b0] =>
      let val := b0.val * 65536
      [b64Char (val / 262144 % 64), b64Char (val / 4096 % 64)]
  | [] => []

/-- Function `base64.RawURLEncoding.EncodeToString`. -/
def base64RawURLEncodeToString (src : List Byte) : String := String.mk (b64Encode src)

/-! ## Data model -/

/-- Modelled from the spec: the record type `database.Video` is declared outside the
two source files; a record has a unique ID, an owning user ID, and optional
thumbnail and video URL fields. -/
structure Video where
  ID : UUID
  UserID : UUID
  ThumbnailURL : Option String
  VideoURL : Option String
deriving DecidableEq, Repr

/-- Fields of `apiConfig` read by the two handlers (the record store and the blob
store client are part of `World`). -/
structure apiConfig where
  jwtSecret : String
  assetsRoot : String
  port : String
  s3Bucket : String
  s3Region : String
deriving DecidableEq, Repr

/-- One file part of a multipart form. -/
structure FilePart where
  /-- Form field name of the part. -/
  field : String
  /-- Client-supplied file name, extension included. -/
  filename : String
  /-- Raw `Content-Type` header of the part. -/
  contentType : String
  /-- Bytes of the uploaded file. -/
  content : List Byte
deriving DecidableEq, Repr

/-- Incoming `*http.Request`, as far as the handlers look at it. -/
structure Request where
  /-- Value of `r.PathValue("videoID")`. -/
  videoID : String
  /-- Request headers. -/
  header : List (String × String)
  /-- Number of leading bytes of the body the multipart parser has to read: the form up
  to the end of its closing boundary. -/
  formLen : Nat
  /-- File parts of the body when it is a well-formed multipart form.  The thumbnail
  handler reads them as parsed; the temporary file the parser writes for parts that do
  not fit in memory is modelled where the video handler looks up its file, in
  `videoFormFile`. -/
  form : Option (List FilePart)
deriving DecidableEq, Repr

/-- File of the local filesystem. -/
structure File where
  path : String
  data : List Byte
deriving DecidableEq, Repr

/-- Object held by the blob store. -/
structure S3Object where
  bucket : String
  key : String
  body : List Byte
  contentType : String
deriving DecidableEq, Repr

/-- Calls the handlers make to the filesystem, the record store and the blob store. -/
inductive Call where
  | GetVideo (id : UUID)
  | UpdateVideo (v : Video)
  | Create (path : String)
  | CreateTemp (path : Option String)
  | MultipartTemp (path : String)
  | Copy (path : String)
  | Remove (path : String)
  | PutObject (bucket : String) (key : String)
deriving DecidableEq, Repr

/-- State of everything outside the handler. -/
structure World where
  /-- Local filesystem (assets directory and OS temporary directory alike). -/
  fs : List File
  /-- Record store. -/
  db : List Video
  /-- Blob store. -/
  s3 : List S3Object
  /-- Log of the calls made so far, oldest first. -/
  calls : List Call
deriving DecidableEq, Repr

/-- Collaborators and outcomes that the handlers do not control. -/
structure Env where
  /-- Function `uuid.Parse`. -/
  uuidParse : String → Option UUID
  /-- Function `auth.GetBearerToken`. -/
  GetBearerToken : List (String × String) → Option String
  /-- Function `auth.ValidateJWT` (token, secret). -/
  ValidateJWT : String → String → Option UUID
  /-- Media type returned by `mime.ParseMediaType`. -/
  ParseMediaType : String → Option String
  /-- Function `http.DetectContentType`. -/
  DetectContentType : List Byte → String
  /-- Function `filepath.Join` of two elements. -/
  filepathJoin : String → String → String
  /-- Directory `os.TempDir()`. -/
  tempDir : String
  /-- Bytes the random source delivers to `rand.Read`. -/
  entropy : List Byte
  /-- Random strings `os.CreateTemp` tries in place of `*`, in order. -/
  tempNames : List String
  /-- Random strings the multipart parser tries for its own temporary file, in order. -/
  multipartNames : List String
  /-- Whether `os.Create` fails. -/
  createFails : Bool
  /-- Whether `os.CreateTemp` fails outright. -/
  createTempFails : Bool
  /-- When `io.Copy` fails: the number of bytes written before the failure. -/
  copyFault : Option Nat
  /-- Whether `file.Read` on the uploaded file fails with an I/O error. -/
  readFails : Bool
  /-- Whether `os.Remove` fails. -/
  removeFails : Bool
  /-- Whether the record store fails on `GetVideo`. -/
  getVideoFails : Bool
  /-- Whether the record store fails on `UpdateVideo`. -/
  updateVideoFails : Bool
  /-- Whether the blob store fails on `PutObject`. -/
  putObjectFails : Bool

/-- Body written to the `http.ResponseWriter`. -/
inductive Body where
  /-- Plain text, as written by `http.Error` and `fmt.Fprintf`. -/
  | text (s : String)
  /-- JSON error object of `respondWithError`. -/
  | errorJSON (msg : String)
  /-- JSON encoding of a record, of `respondWithJSON`. -/
  | videoJSON (v : Video)
deriving DecidableEq, Repr

/-- Response written by a handler. -/
structure Response where
  status : Nat
  body : Body
deriving DecidableEq, Repr

/-! ## Status codes and response helpers -/

def StatusOK : Nat := 200
def StatusBadRequest : Nat := 400
def StatusUnauthorized : Nat := 401
def StatusNotFound : Nat := 404
def StatusInternalServerError : Nat := 500

/-- Modelled from the spec: the helper `respondWithError` is defined outside the two
source files; it answers with the given status code and a JSON error body carrying
the message. -/
def respondWithError (code : Nat) (msg : String) : Response := ⟨code, Body.errorJSON msg⟩

/-- Modelled from the spec: the helper `respondWithJSON` is defined outside the two
source files; it answers with the given status code and the JSON encoding of the
payload. -/
def respondWithJSON (code : Nat) (payload : Video) : Response := ⟨code, Body.videoJSON payload⟩

/-- Function `http.Error`: plain-text message followed by a newline, with the code. -/
def httpError (error : String) (code : Nat) : Response := ⟨code, Body.text (error ++ "\n")⟩

/-- Max upload size: 1GB (`1 << 30`). -/
def maxUploadSize : Nat := 2 ^ 30

/-! ## System calls -/

/-- Call `rand.Read(b)` on a fresh buffer `make([]byte, n)`: the buffer afterwards
(bytes the source did not deliver stay zero) and whether it was filled entirely. -/
def randRead (env : Env) (n : Nat) : List Byte × Bool :=
  ((List.range n).map (fun i => env.entropy.getD i 0), decide (n ≤ env.entropy.length))

/-- Call `os.Create(path)`: creates the file, or truncates it when it exists. -/
def osCreate (env : Env) (w : World) (path : String) : World × Bool :=
  let calls := w.calls ++ [Call.Create path]
  if env.createFails then ({ w with calls := calls }, false)
  else if w.fs.any (fun f => f.path = path) then
    ({ w with fs := w.fs.map (fun f => if f.path = path then ⟨path, []⟩ else f),
              calls := calls }, true)
  else ({ w with fs := w.fs ++ [⟨path, []⟩], calls := calls }, true)

/-- Call `io.Copy(dst, src)` where `dst` is the open file at `path` and `src` holds
the bytes still to be read. -/
def ioCopy (env : Env) (w : World) (path : String) (src : List Byte) : World × Bool :=
  let written := match env.copyFault with
    | none => src
    | some n => src.take n
  ({ w with fs := w.fs.map (fun f => if f.path = path then ⟨path, f.data ++ written⟩ else f),
            calls := w.calls ++ [Call.Copy path] }, env.copyFault.isNone)

/-- Path `os.CreateTemp("", "tubely-upload-*.mp4")` builds from the random string. -/
def tempPath (env : Env) (s : String) : String :=
  env.filepathJoin env.tempDir ("tubely-upload-" ++ s ++ ".mp4")

/-- Call `os.CreateTemp("", "tubely-upload-*.mp4")`: the first candidate path that
does not exist yet is created (exclusively) and returned. -/
def osCreateTemp (env : Env) (w : World) : World × Option String :=
  if env.createTempFails then ({ w with calls := w.calls ++ [Call.CreateTemp none] }, none)
  else
    match (env.tempNames.map (tempPath env)).find?
        (fun p => !(w.fs.any (fun f => f.path = p))) with
    | none => ({ w with calls := w.calls ++ [Call.CreateTemp none] }, none)
    | some p =>
        ({ w with fs := w.fs ++ [⟨p, []⟩], calls := w.calls ++ [Call.CreateTemp (some p)] },
          some p)

/-- Call `os.Remove(path)`, whose error the handler drops: on failure the file stays. -/
def osRemove (env : Env) (w : World) (path : String) : World :=
  { w with fs := if env.removeFails then w.fs else w.fs.filter (fun f => f.path ≠ path),
           calls := w.calls ++ [Call.Remove path] }

/-- Bytes of the file at `path`, read from its start. -/
def readFile (w : World) (path : String) : List Byte :=
  match w.fs.find? (fun f => f.path = path) with
  | some f => f.data
  | none => []

/-- Call `file.Read(buf)` at the start of the uploaded file with `buf = make([]byte, n)`:
the buffer afterwards (zero beyond the bytes read) and whether the read succeeded
(an empty file yields `io.EOF`). -/
def fileRead (env : Env) (content : List Byte) (n : Nat) : List Byte × Bool :=
  ((List.range n).map (fun i => content.getD i 0), !content.isEmpty && !env.readFails)

/-- Lookup of `r.FormFile(key)` in a parsed form: the first file part of that field. -/
def FormFile (form : List FilePart) (key : String) : Option FilePart :=
  form.find? (fun p => p.field = key)

/-- Modelled from the spec: the record store is defined outside the two source files;
`GetVideo` is get-by-ID on a store keyed by video ID. -/
def GetVideo (env : Env) (w : World) (id : UUID) : World × Option Video :=
  ({ w with calls := w.calls ++ [Call.GetVideo id] },
    if env.getVideoFails then none else w.db.find? (fun v => v.ID = id))

/-- Modelled from the spec: the record store is defined outside the two source files;
`UpdateVideo` is update-by-record: on success the record with the same ID is replaced. -/
def UpdateVideo (env : Env) (w : World) (video : Video) : World × Bool :=
  let calls := w.calls ++ [Call.UpdateVideo video]
  if env.updateVideoFails then ({ w with calls := calls }, false)
  else ({ w with db := w.db.map (fun v => if v.ID = video.ID then video else v),
                 calls := calls }, true)

/-- Call `cfg.s3Client.PutObject` with bucket, key, body and content type. -/
def PutObject (env : Env) (w : World) (bucket key : String) (body : List Byte)
    (contentType : String) : World × Bool :=
  let calls := w.calls ++ [Call.PutObject bucket key]
  if env.putObjectFails then ({ w with calls := calls }, false)
  else ({ w with s3 := w.s3.filter (fun o => ¬ (o.bucket = bucket ∧ o.key = key)) ++
                   [⟨bucket, key, body, contentType⟩],
                 calls := calls }, true)

/-! ## handler_upload_thumbnail.go -/

/-- Switch on the media type: only PNG and JPEG are allowed. -/
def fileExtOf (mediaType : String) : Option String :=
  if mediaType = "image/png" then some ".png"
  else if mediaType = "image/jpeg" then some ".jpg"
  else none

/-- File name of a stored thumbnail. -/
def thumbnailFileName (randomBytes : List Byte) (fileExt : String) : String :=
  base64RawURLEncodeToString randomBytes ++ fileExt

/-- Thumbnail URL `fmt.Sprintf("http://localhost:%s/assets/%s", cfg.port, fileName)`. -/
def thumbnailURLOf (cfg : apiConfig) (fileName : String) : String :=
  "http://localhost:" ++ cfg.port ++ "/assets/" ++ fileName

/-- Handler `(cfg *apiConfig) handlerUploadThumbnail`.  Every fallible call yields a
pair of the new state of the world and its result; the handler returns at the
first failure, as the source does on `err != nil`. -/
def handlerUploadThumbnail (env : Env) (cfg : apiConfig) (r : Request) (w : World) :
    Response × World :=
  match env.uuidParse r.videoID with
  | none => (respondWithError StatusBadRequest "Invalid ID", w)
  | some videoID =>
  match env.GetBearerToken r.header with
  | none => (respondWithError StatusUnauthorized "Couldn't find JWT", w)
  | some token =>
  match env.ValidateJWT token cfg.jwtSecret with
  | none => (respondWithError StatusUnauthorized "Couldn't validate JWT", w)
  | some userID =>
  -- r.ParseMultipartForm(maxMemory)
  match r.form with
  | none => (respondWithError StatusBadRequest "Failed to parse form data", w)
  | some form =>
  match FormFile form "thumbnail" with
  | none => (respondWithError StatusBadRequest "Failed to retrieve file from form", w)
  | some fileHeader =>
  match env.ParseMediaType fileHeader.contentType with
  | none => (respondWithError StatusBadRequest "Invalid Content-Type", w)
  | some mediaType =>
  match fileExtOf mediaType with
  | none => (respondWithError StatusBadRequest "Unsupported file type", w)
  | some fileExt =>
  let rnd := randRead env 32
  if rnd.2 = false then
    (respondWithError StatusInternalServerError "Failed to generate random filename", w)
  else
  let fileName := thumbnailFileName rnd.1 fileExt
  let filePath := env.filepathJoin cfg.assetsRoot fileName
  let created := osCreate env w filePath
  if created.2 = false then
    (respondWithError StatusInternalServerError "Failed to create file on disk", created.1)
  else
  let copied := ioCopy env created.1 filePath fileHeader.content
  if copied.2 = false then
    (respondWithError StatusInternalServerError "Failed to save file", copied.1)
  else
  let thumbnailURL := thumbnailURLOf cfg fileName
  let fetched := GetVideo env copied.1 videoID
  match fetched.2 with
  | none => (respondWithError StatusNotFound "Video not found", fetched.1)
  | some video =>
  if video.UserID ≠ userID then
    (respondWithError StatusUnauthorized "You do not have permission to modify this video",
      fetched.1)
  else
  let video := { video with ThumbnailURL := some thumbnailURL }
  let updated := UpdateVideo env fetched.1 video
  if updated.2 = false then
    (respondWithError StatusInternalServerError "Failed to update video metadata", updated.1)
  else (respondWithJSON StatusOK video, updated.1)

/-! ## handler_upload_video.go -/

/-- Storage key `fmt.Sprintf("videos/%s.mp4", hex.EncodeToString(randomBytes))`. -/
def fileKeyOf (randomBytes : List Byte) : String :=
  "videos/" ++ hexEncodeToString randomBytes ++ ".mp4"

/-- URL `fmt.Sprintf("https://%s.s3.%s.amazonaws.com/%s", ...)` of bucket, region and
key. -/
def s3URLOf (cfg : apiConfig) (fileKey : String) : String :=
  "https://" ++ cfg.s3Bucket ++ ".s3." ++ cfg.s3Region ++ ".amazonaws.com/" ++ fileKey

/-- Success body of the video handler, a literal JSON object around the URL. -/
def successBody (s3URL : String) : String :=
  "\x7b\"message\": \"Video uploaded successfully\", \"s3_url\": \"" ++ s3URL ++ "\"\x7d"

/-- Part of `handlerUploadVideo` that runs while the temporary file exists, from
`io.Copy(tempFile, file)` to the end; `content` is the uploaded file rewound to its
start. -/
def uploadStaged (env : Env) (cfg : apiConfig) (w : World) (video : Video)
    (content : List Byte) (tempName : String) : Response × World :=
  let copied := ioCopy env w tempName content
  if copied.2 = false then
    (httpError "Failed to save file" StatusInternalServerError, copied.1)
  else
  -- tempFile.Seek(0, io.SeekStart); the error of rand.Read is dropped
  let randomBytes := (randRead env 16).1
  let fileKey := fileKeyOf randomBytes
  let contentType := "video/mp4"
  let put := PutObject env copied.1 cfg.s3Bucket fileKey (readFile copied.1 tempName) contentType
  if put.2 = false then
    (httpError "Failed to upload to S3" StatusInternalServerError, put.1)
  else
  let s3URL := s3URLOf cfg fileKey
  let video := { video with VideoURL := some s3URL }
  let updated := UpdateVideo env put.1 video
  if updated.2 = false then
    (httpError "Failed to update database" StatusInternalServerError, updated.1)
  else (⟨StatusOK, Body.text (successBody s3URL)⟩, updated.1)

/-- Memory budget of `r.FormFile`: `defaultMaxMemory = 32 << 20`. -/
def defaultMaxMemory : Nat := 32 * 2 ^ 20

/-- File parts that `ReadForm` does not keep in memory: a part larger than what is left
of the budget goes to disk, a smaller one uses up that much of the budget. -/
def spilledParts (budget : Nat) : List FilePart → List FilePart
  | [] => []
  | p :: rest =>
      if p.content.length > budget then p :: spilledParts budget rest
      else spilledParts (budget - p.content.length) rest

/-- Bytes of the parts written to disk, one after the other in the parser's one file. -/
def spilledBytes : List FilePart → List Byte
  | [] => []
  | p :: rest => p.content ++ spilledBytes rest

/-- Path of the parser's temporary file, `os.CreateTemp(os.TempDir(), "multipart-")`. -/
def multipartPath (env : Env) (s : String) : String :=
  env.filepathJoin env.tempDir ("multipart-" ++ s)

/-- Call `r.FormFile("video")`: it parses the body with `ParseMultipartForm(defaultMaxMemory)`
and returns the first file part of the field.  Parsing fails when the parser has to
read past the `maxUploadSize` bytes that `http.MaxBytesReader` lets through, when the
body is not a well-formed form, or when the parser cannot create its temporary file;
a failed parse leaves no file behind.  On success the parts that did not fit in
memory are in a new file `multipart-*` of the temporary directory, which the handler
never removes. -/
def videoFormFile (env : Env) (w : World) (r : Request) : World × Option FilePart :=
  if r.formLen > maxUploadSize then (w, none)
  else
    match r.form with
    | none => (w, none)
    | some form =>
      if (spilledParts defaultMaxMemory form).isEmpty then (w, FormFile form "video")
      else
        match (env.multipartNames.map (multipartPath env)).find?
            (fun p => !(w.fs.any (fun f => f.path = p))) with
        | none => (w, none)
        | some p =>
            ({ w with fs := w.fs ++ [⟨p, spilledBytes (spilledParts defaultMaxMemory form)⟩],
                      calls := w.calls ++ [Call.MultipartTemp p] },
              FormFile form "video")

/-- Handler `(cfg *apiConfig) handlerUploadVideo`. -/
def handlerUploadVideo (env : Env) (cfg : apiConfig) (r : Request) (w : World) :
    Response × World :=
  match env.uuidParse r.videoID with
  | none => (httpError "Invalid video ID" StatusBadRequest, w)
  | some videoUUID =>
  match env.GetBearerToken r.header with
  | none => (respondWithError StatusUnauthorized "Couldn't find JWT", w)
  | some token =>
  match env.ValidateJWT token cfg.jwtSecret with
  | none => (respondWithError StatusUnauthorized "Couldn't validate JWT", w)
  | some userID =>
  let fetched := GetVideo env w videoUUID
  match fetched.2 with
  | none => (httpError "Unauthorized" StatusUnauthorized, fetched.1)
  | some video =>
  if video.UserID ≠ userID then (httpError "Unauthorized" StatusUnauthorized, fetched.1)
  else
  let parsed := videoFormFile env fetched.1 r
  match parsed.2 with
  | none => (httpError "Invalid file upload" StatusBadRequest, parsed.1)
  | some file =>
  let read := fileRead env file.content 512
  if read.2 = false then (httpError "Failed to read file" StatusBadRequest, parsed.1)
  else
  -- file.Seek(0, io.SeekStart)
  let mimeType := env.DetectContentType read.1
  if mimeType ≠ "video/mp4" then
    (httpError "Invalid file type, must be MP4" StatusBadRequest, parsed.1)
  else
  let temp := osCreateTemp env parsed.1
  match temp.2 with
  | none => (httpError "Failed to create temp file" StatusInternalServerError, temp.1)
  | some tempName =>
  -- defer os.Remove(tempFile.Name())
  let out := uploadStaged env cfg temp.1 video file.content tempName
  (out.1, osRemove env out.2 tempName)

/-! ## Vocabulary of the statements -/

/-- Calls a handler run made: the part of the log of `out` added to the log of `w`. -/
def callsDuring (w : World) (out : Response × World) : List Call :=
  out.2.calls.drop w.calls.length

/-- The same request with every client-supplied file name replaced. -/
def renameFiles (rename : FilePart → String) (r : Request) : Request :=
  { r with form := r.form.map (List.map (fun p => { p with filename := rename p })) }

/-- Characters `A-Z`, `a-z`, `0-9`, `-` and `_`. -/
def isURLSafeChar (c : Char) : Bool :=
  c.isUpper || c.isLower || c.isDigit || c = '-' || c = '_'

/-- Characters `0-9` and `a-f`. -/
def isLowerHexChar (c : Char) : Bool :=
  c.isDigit || ('a' ≤ c && c ≤ 'f')

/-- Position of a character in the hex alphabet. -/
def hexIndex (c : Char) : Nat := hextable.indexOf c

/-- Position of a character in the URL-safe alphabet. -/
def b64Index (c : Char) : Nat := encodeURL.indexOf c

/-! ## Sample inputs -/

/-- A sample environment: one well-formed video ID, tokens of two users, a media-type
parser that accepts every non-empty header, a sniffer that knows MP4 and PDF, and no
failing system call. -/
def sampleEnv : Env where
  uuidParse := fun s => if s = "6ba7b810-9dad-11d1-80b4-00c04fd430c8" then some 7 else none
  GetBearerToken := fun h =>
    match h.lookup "Authorization" with
    | some "Bearer alice-token" => some "alice-token"
    | some "Bearer bob-token" => some "bob-token"
    | _ => none
  ValidateJWT := fun token secret =>
    if secret = "secret" then
      (if token = "alice-token" then some 1 else if token = "bob-token" then some 2 else none)
    else none
  ParseMediaType := fun s => if s = "" then none else some s
  DetectContentType := fun buf =>
    if (buf.drop 4).take 4 = [102, 116, 121, 112] then "video/mp4"
    else if buf.take 4 = [37, 80, 68, 70] then "application/pdf"
    else "application/octet-stream"
  filepathJoin := fun a b => a ++ "/" ++ b
  tempDir := "/tmp"
  entropy := [0, 1, 2, 3, 4, 5, 6, 7, 8, 9, 10, 11, 12, 13, 14, 15, 16, 17, 18, 19, 20, 21,
    22, 23, 24, 25, 26, 27, 28, 29, 30, 255]
  tempNames := ["1234"]
  multipartNames := ["5678"]
  createFails := false
  createTempFails := false
  copyFault := none
  readFails := false
  removeFails := false
  getVideoFails := false
  updateVideoFails := false
  putObjectFails := false

/-- A sample configuration. -/
def sampleCfg : apiConfig := ⟨"secret", "./assets", "8091", "tubely-bucket", "us-east-2"⟩

/-- A sample world: empty disk and bucket, one record with ID 7 owned by user 1 (alice). -/
def sampleWorld : World := ⟨[], [⟨7, 1, none, none⟩], [], []⟩

/-- A thumbnail upload for the sample record with the given `Authorization` header
and declared content type. -/
def thumbnailRequest (videoID authorization contentType : String) : Request :=
  ⟨videoID, [("Authorization", authorization)], 100,
    some [⟨"thumbnail", "cat.gif", contentType, [1, 2, 3]⟩]⟩

/-- A video upload for the sample record with the given `Authorization` header and
file content. -/
def videoRequest (videoID authorization : String) (content : List Byte) : Request :=
  ⟨videoID, [("Authorization", authorization)], 100,
    some [⟨"video", "cat.mp4", "video/mp4", content⟩]⟩

/-- The well-formed video ID of the sample record. -/
def sampleID : String := "6ba7b810-9dad-11d1-80b4-00c04fd430c8"

/-- First bytes of an MP4 file: a box of size 32 of type `ftyp`. -/
def mp4Bytes : List Byte := [0, 0, 0, 32, 102, 116, 121, 112, 105, 115, 111, 109]

/-- First bytes of a PDF file: `%PDF-1.4`. -/
def pdfBytes : List Byte := [37, 80, 68, 70, 45, 49, 46, 52]

/-- A file of 32 MiB and one byte, all zero: one byte more than the parser keeps in
memory. -/
def largeBytes : List Byte := List.replicate (32 * 2 ^ 20 + 1) 0

/-- Alice uploads the large file as the video of her record. -/
def largeUpload : Request :=
  ⟨"6ba7b810-9dad-11d1-80b4-00c04fd430c8", [("Authorization", "Bearer alice-token")],
    32 * 2 ^ 20 + 1024, some [⟨"video", "large.bin", "video/mp4", largeBytes⟩]⟩

/-- The sample environment with a failing `os.Remove`. -/
def removeFailsEnv : Env := { sampleEnv with removeFails := true }

/-- Parts of the request that the parser of the video handler writes to disk. -/
def spilled (r : Request) : List FilePart :=
  match r.form with
  | none => []
  | some form => spilledParts defaultMaxMemory form


/-! ## Lemmas on the encodings -/

theorem hexIndex_hexDigit (n : Nat) (h : n < 16) : hexIndex (hexDigit n) = n := by
  interval_cases n <;> rfl

theorem hexDigit_inj {m n : Nat} (hm : m < 16) (hn : n < 16) (h : hexDigit m = hexDigit n) :
    m = n := by
  have := congrArg hexIndex h
  rwa [hexIndex_hexDigit m hm, hexIndex_hexDigit n hn] at this

theorem hexDigit_lower (n : Nat) (h : n < 16) : isLowerHexChar (hexDigit n) = true := by
  interval_cases n <;> decide

theorem hexEncode_length (src : List Byte) : (hexEncode src).length = 2 * src.length := by
  induction src with
  | nil => rfl
  | cons v rest ih => simp [hexEncode, ih]; omega

theorem hexEncode_lower (src : List Byte) :
    ∀ c ∈ hexEncode src, isLowerHexChar c = true := by
  induction src with
  | nil => simp [hexEncode]
  | cons v rest ih =>
    intro c hc
    simp only [hexEncode, List.mem_cons] at hc
    rcases hc with rfl | rfl | hc
    · exact hexDigit_lower _ (by omega)
    · exact hexDigit_lower _ (by omega)
    · exact ih c hc

theorem hexEncode_injective : Function.Injective hexEncode := by
  intro a
  induction a with
  | nil =>
    intro b h
    cases b with
    | nil => rfl
    | cons v rest => simp [hexEncode] at h
  | cons v rest ih =>
    intro b h
    cases b with
    | nil => simp [hexEncode] at h
    | cons u rest2 =>
      simp only [hexEncode, List.cons.injEq] at h
      obtain ⟨h1, h2, h3⟩ := h
      have e1 := hexDigit_inj (by omega) (by omega) h1
      have e2 := hexDigit_inj (by omega) (by omega) h2
      have : v = u := Fin.ext (by omega)
      rw [this, ih h3]

theorem b64Index_b64Char (n : Nat) (h : n < 64) : b64Index (b64Char n) = n := by
  interval_cases n <;> rfl

theorem b64Char_inj {m n : Nat} (hm : m < 64) (hn : n < 64) (h : b64Char m = b64Char n) :
    m = n := by
  have := congrArg b64Index h
  rwa [b64Index_b64Char m hm, b64Index_b64Char n hn] at this

theorem b64Char_safe (n : Nat) (h : n < 64) : isURLSafeChar (b64Char n) = true := by
  interval_cases n <;> decide

theorem b64Encode_length (src : List Byte) :
    (b64Encode src).length = (src.length * 4 + 2) / 3 := by
  induction src using b64Encode.induct with
  | case1 b0 b1 b2 rest ih => simp [b64Encode, ih]; omega
  | case2 b0 b1 => simp [b64Encode]
  | case3 b0 => simp [b64Encode]
  | case4 => simp [b64Encode]

theorem b64Encode_safe (src : List Byte) :
    ∀ c ∈ b64Encode src, isURLSafeChar c = true := by
  induction src using b64Encode.induct with
  | case1 b0 b1 b2 rest ih =>
    intro c hc
    simp only [b64Encode, List.mem_cons] at hc
    rcases hc with rfl | rfl | rfl | rfl | hc
    · exact b64Char_safe _ (Nat.mod_lt _ (by norm_num))
    · exact b64Char_safe _ (Nat.mod_lt _ (by norm_num))
    · exact b64Char_safe _ (Nat.mod_lt _ (by norm_num))
    · exact b64Char_safe _ (Nat.mod_lt _ (by norm_num))
    · exact ih c hc
  | case2 b0 b1 =>
    intro c hc
    simp only [b64Encode, List.mem_cons, List.mem_singleton, List.not_mem_nil, or_false] at hc
    rcases hc with rfl | rfl | rfl <;> exact b64Char_safe _ (Nat.mod_lt _ (by norm_num))
  | case3 b0 =>
    intro c hc
    simp only [b64Encode, List.mem_cons, List.mem_singleton, List.not_mem_nil, or_false] at hc
    rcases hc with rfl | rfl <;> exact b64Char_safe _ (Nat.mod_lt _ (by norm_num))
  | case4 => simp [b64Encode]

theorem b64Encode_injective : Function.Injective b64Encode := by
  intro a
  induction a using b64Encode.induct with
  | case1 b0 b1 b2 rest ih =>
    intro b h
    match b with
    | c0 :: c1 :: c2 :: rest2 =>
      simp only [b64Encode, List.cons.injEq] at h
      obtain ⟨h1, h2, h3, h4, h5⟩ := h
      have e1 := b64Char_inj (Nat.mod_lt _ (by norm_num)) (Nat.mod_lt _ (by norm_num)) h1
      have e2 := b64Char_inj (Nat.mod_lt _ (by norm_num)) (Nat.mod_lt _ (by norm_num)) h2
      have e3 := b64Char_inj (Nat.mod_lt _ (by norm_num)) (Nat.mod_lt _ (by norm_num)) h3
      have e4 := b64Char_inj (Nat.mod_lt _ (by norm_num)) (Nat.mod_lt _ (by norm_num)) h4
      have hb0 := b0.isLt
      have hb1 := b1.isLt
      have hb2 := b2.isLt
      have hc0 := c0.isLt
      have hc1 := c1.isLt
      have hc2 := c2.isLt
      have x0 : b0 = c0 := Fin.ext (by omega)
      have x1 : b1 = c1 := Fin.ext (by omega)
      have x2 : b2 = c2 := Fin.ext (by omega)
      rw [x0, x1, x2, ih h5]
    | [c0, c1] => simp [b64Encode] at h
    | [c0] => simp [b64Encode] at h
    | [] => simp [b64Encode] at h
  | case2 b0 b1 =>
    intro b h
    match b with
    | c0 :: c1 :: c2 :: rest2 => simp [b64Encode] at h
    | [c0, c1] =>
      simp only [b64Encode, List.cons.injEq, and_true] at h
      obtain ⟨h1, h2, h3⟩ := h
      have e1 := b64Char_inj (Nat.mod_lt _ (by norm_num)) (Nat.mod_lt _ (by norm_num)) h1
      have e2 := b64Char_inj (Nat.mod_lt _ (by norm_num)) (Nat.mod_lt _ (by norm_num)) h2
      have e3 := b64Char_inj (Nat.mod_lt _ (by norm_num)) (Nat.mod_lt _ (by norm_num)) h3
      have hb0 := b0.isLt
      have hb1 := b1.isLt
      have hc0 := c0.isLt
      have hc1 := c1.isLt
      have x0 : b0 = c0 := Fin.ext (by omega)
      have x1 : b1 = c1 := Fin.ext (by omega)
      rw [x0, x1]
    | [c0] => simp [b64Encode] at h
    | [] => simp [b64Encode] at h
  | case3 b0 =>
    intro b h
    match b with
    | c0 :: c1 :: c2 :: rest2 => simp [b64Encode] at h
    | [c0, c1] => simp [b64Encode] at h
    | [c0] =>
      simp only [b64Encode, List.cons.injEq, and_true] at h
      obtain ⟨h1, h2⟩ := h
      have e1 := b64Char_inj (Nat.mod_lt _ (by norm_num)) (Nat.mod_lt _ (by norm_num)) h1
      have e2 := b64Char_inj (Nat.mod_lt _ (by norm_num)) (Nat.mod_lt _ (by norm_num)) h2
      have hb0 := b0.isLt
      have hc0 := c0.isLt
      have x0 : b0 = c0 := Fin.ext (by omega)
      rw [x0]
    | [] => simp [b64Encode] at h
  | case4 =>
    intro b h
    match b with
    | c0 :: c1 :: c2 :: rest2 => simp [b64Encode] at h
    | [c0, c1] => simp [b64Encode] at h
    | [c0] => simp [b64Encode] at h
    | [] => rfl

theorem randRead_length (env : Env) (n : Nat) : (randRead env n).1.length = n := by
  simp [randRead]

theorem fileKeyOf_data (b : List Byte) :
    (fileKeyOf b).data = "videos/".data ++ (hexEncode b ++ ".mp4".data) := by
  simp [fileKeyOf, hexEncodeToString, String.data_append]

theorem fileKeyOf_injective : Function.Injective fileKeyOf := by
  intro a b h
  have h2 := congrArg String.data h
  rw [fileKeyOf_data, fileKeyOf_data] at h2
  exact hexEncode_injective (List.append_cancel_right (List.append_cancel_left h2))

theorem thumbnailFileName_data (b : List Byte) (e : String) :
    (thumbnailFileName b e).data = b64Encode b ++ e.data := by
  simp [thumbnailFileName, base64RawURLEncodeToString, String.data_append]

theorem thumbnailFileName_ne (b1 b2 : List Byte) (e1 e2 : String)
    (hlen : b1.length = b2.length) (hne : b1 ≠ b2) :
    thumbnailFileName b1 e1 ≠ thumbnailFileName b2 e2 := by
  intro h
  have h2 := congrArg String.data h
  rw [thumbnailFileName_data, thumbnailFileName_data] at h2
  have hl : (b64Encode b1).length = (b64Encode b2).length := by
    rw [b64Encode_length, b64Encode_length, hlen]
  exact hne (b64Encode_injective (List.append_inj h2 hl).1)

theorem thumbnailFileName_injective (e : String) :
    Function.Injective (fun b => thumbnailFileName b e) := by
  intro a b h
  have h2 := congrArg String.data h
  simp only [thumbnailFileName_data] at h2
  exact b64Encode_injective (List.append_cancel_right h2)

/-! ## Effects of the system calls, field by field -/

theorem osCreate_db (env : Env) (w : World) (p : String) : (osCreate env w p).1.db = w.db := by
  unfold osCreate; repeat' split
  all_goals rfl

theorem osCreate_s3 (env : Env) (w : World) (p : String) : (osCreate env w p).1.s3 = w.s3 := by
  unfold osCreate; repeat' split
  all_goals rfl

theorem osCreate_calls (env : Env) (w : World) (p : String) :
    (osCreate env w p).1.calls = w.calls ++ [Call.Create p] := by
  unfold osCreate; repeat' split
  all_goals rfl

theorem osCreate_mem (env : Env) (w : World) (p : String) (h : (osCreate env w p).2 = true) :
    (⟨p, []⟩ : File) ∈ (osCreate env w p).1.fs := by
  revert h
  unfold osCreate
  split
  · simp
  · split
    · rename_i hany
      intro _
      simp only [List.any_eq_true, decide_eq_true_eq] at hany
      obtain ⟨f, hf, hp⟩ := hany
      simp only [List.mem_map]
      exact ⟨f, hf, by simp [hp]⟩
    · simp

theorem ioCopy_db (env : Env) (w : World) (p : String) (c : List Byte) :
    (ioCopy env w p c).1.db = w.db := rfl

theorem ioCopy_s3 (env : Env) (w : World) (p : String) (c : List Byte) :
    (ioCopy env w p c).1.s3 = w.s3 := rfl

theorem ioCopy_calls (env : Env) (w : World) (p : String) (c : List Byte) :
    (ioCopy env w p c).1.calls = w.calls ++ [Call.Copy p] := rfl

theorem ioCopy_mem (env : Env) (w : World) (p : String) (c : List Byte)
    (h : (ioCopy env w p c).2 = true) (hmem : (⟨p, []⟩ : File) ∈ w.fs) :
    (⟨p, c⟩ : File) ∈ (ioCopy env w p c).1.fs := by
  have hn : env.copyFault = none := by
    cases hc : env.copyFault with
    | none => rfl
    | some n => simp [ioCopy, hc] at h
  simp only [ioCopy, hn, List.mem_map]
  exact ⟨⟨p, []⟩, hmem, by simp⟩

theorem GetVideo_fs (env : Env) (w : World) (id : UUID) : (GetVideo env w id).1.fs = w.fs := rfl

theorem GetVideo_db (env : Env) (w : World) (id : UUID) : (GetVideo env w id).1.db = w.db := rfl

theorem GetVideo_s3 (env : Env) (w : World) (id : UUID) : (GetVideo env w id).1.s3 = w.s3 := rfl

theorem GetVideo_calls (env : Env) (w : World) (id : UUID) :
    (GetVideo env w id).1.calls = w.calls ++ [Call.GetVideo id] := rfl

theorem GetVideo_result (env : Env) (w : World) (id : UUID) :
    (GetVideo env w id).2 =
      if env.getVideoFails then none else w.db.find? (fun v => v.ID = id) := rfl

theorem GetVideo_some (env : Env) (w : World) (id : UUID) (video : Video)
    (h : (GetVideo env w id).2 = some video) :
    w.db.find? (fun v => v.ID = id) = some video ∧ video.ID = id := by
  rw [GetVideo_result] at h
  split at h
  · cases h
  · exact ⟨h, by simpa using List.find?_some h⟩

theorem UpdateVideo_fs (env : Env) (w : World) (v : Video) :
    (UpdateVideo env w v).1.fs = w.fs := by
  unfold UpdateVideo; split <;> rfl

theorem UpdateVideo_s3 (env : Env) (w : World) (v : Video) :
    (UpdateVideo env w v).1.s3 = w.s3 := by
  unfold UpdateVideo; split <;> rfl

theorem UpdateVideo_calls (env : Env) (w : World) (v : Video) :
    (UpdateVideo env w v).1.calls = w.calls ++ [Call.UpdateVideo v] := by
  unfold UpdateVideo; split <;> rfl

theorem UpdateVideo_ok (env : Env) (w : World) (v : Video) :
    (UpdateVideo env w v).2 = !env.updateVideoFails := by
  unfold UpdateVideo; split <;> simp_all

theorem UpdateVideo_db (env : Env) (w : World) (v : Video) :
    (UpdateVideo env w v).1.db =
      if env.updateVideoFails then w.db
      else w.db.map (fun x => if x.ID = v.ID then v else x) := by
  unfold UpdateVideo; split <;> simp_all

theorem find_map_replace (db : List Video) (id : UUID) (old new : Video)
    (h : db.find? (fun v => v.ID = id) = some old) (hid : new.ID = id) :
    (db.map (fun x => if x.ID = new.ID then new else x)).find? (fun v => v.ID = id) =
      some new := by
  induction db with
  | nil => simp at h
  | cons a rest ih =>
    by_cases ha : a.ID = id
    · simp [List.find?_cons, ha, hid]
    · have hrest : rest.find? (fun v => v.ID = id) = some old := by
        simpa [List.find?_cons, ha] using h
      have hne : ¬ a.ID = new.ID := by rw [hid]; exact ha
      rw [List.map_cons, if_neg hne, List.find?_cons]
      simp only [ha, decide_False]
      exact ih hrest

theorem PutObject_fs (env : Env) (w : World) (b k : String) (body : List Byte) (ct : String) :
    (PutObject env w b k body ct).1.fs = w.fs := by
  unfold PutObject; split <;> rfl

theorem PutObject_db (env : Env) (w : World) (b k : String) (body : List Byte) (ct : String) :
    (PutObject env w b k body ct).1.db = w.db := by
  unfold PutObject; split <;> rfl

theorem PutObject_calls (env : Env) (w : World) (b k : String) (body : List Byte)
    (ct : String) :
    (PutObject env w b k body ct).1.calls = w.calls ++ [Call.PutObject b k] := by
  unfold PutObject; split <;> rfl

theorem PutObject_mem (env : Env) (w : World) (b k : String) (body : List Byte)
    (ct : String) (h : (PutObject env w b k body ct).2 = true) :
    (⟨b, k, body, ct⟩ : S3Object) ∈ (PutObject env w b k body ct).1.s3 := by
  revert h
  unfold PutObject
  split <;> simp

theorem osCreateTemp_db (env : Env) (w : World) : (osCreateTemp env w).1.db = w.db := by
  unfold osCreateTemp; repeat' split
  all_goals rfl

theorem osCreateTemp_s3 (env : Env) (w : World) : (osCreateTemp env w).1.s3 = w.s3 := by
  unfold osCreateTemp; repeat' split
  all_goals rfl

theorem osCreateTemp_calls (env : Env) (w : World) :
    (osCreateTemp env w).1.calls = w.calls ++ [Call.CreateTemp (osCreateTemp env w).2] := by
  unfold osCreateTemp; repeat' split
  all_goals simp_all

theorem osCreateTemp_none (env : Env) (w : World) (h : (osCreateTemp env w).2 = none) :
    (osCreateTemp env w).1.fs = w.fs := by
  revert h
  unfold osCreateTemp; repeat' split
  all_goals simp_all

theorem osCreateTemp_some (env : Env) (w : World) (p : String)
    (h : (osCreateTemp env w).2 = some p) :
    (osCreateTemp env w).1.fs = w.fs ++ [⟨p, []⟩] ∧ ∀ f ∈ w.fs, f.path ≠ p := by
  revert h
  unfold osCreateTemp
  split
  · simp
  · split
    · simp
    · rename_i q hq
      intro h
      simp only [Option.some.injEq] at h
      subst h
      refine ⟨rfl, ?_⟩
      have := List.find?_some hq
      simpa using this

theorem osRemove_db (env : Env) (w : World) (p : String) : (osRemove env w p).db = w.db := rfl

theorem osRemove_s3 (env : Env) (w : World) (p : String) : (osRemove env w p).s3 = w.s3 := rfl

theorem osRemove_calls (env : Env) (w : World) (p : String) :
    (osRemove env w p).calls = w.calls ++ [Call.Remove p] := rfl

theorem osRemove_fs (env : Env) (w : World) (p : String) (h : env.removeFails = false) :
    (osRemove env w p).fs = w.fs.filter (fun f => f.path ≠ p) := by
  simp [osRemove, h]

theorem videoFormFile_db (env : Env) (w : World) (r : Request) :
    (videoFormFile env w r).1.db = w.db := by
  unfold videoFormFile; repeat' split
  all_goals rfl

theorem videoFormFile_s3 (env : Env) (w : World) (r : Request) :
    (videoFormFile env w r).1.s3 = w.s3 := by
  unfold videoFormFile; repeat' split
  all_goals rfl

theorem videoFormFile_world (env : Env) (w : World) (r : Request) :
    (videoFormFile env w r).1 = w ∨
    ∃ s, s ∈ env.multipartNames ∧ spilled r ≠ [] ∧ (∀ f ∈ w.fs, f.path ≠ multipartPath env s) ∧
      (videoFormFile env w r).1 =
        { w with fs := w.fs ++ [⟨multipartPath env s, spilledBytes (spilled r)⟩],
                 calls := w.calls ++ [Call.MultipartTemp (multipartPath env s)] } := by
  unfold videoFormFile
  split
  · exact Or.inl rfl
  · split
    · exact Or.inl rfl
    · rename_i form hform
      split
      · exact Or.inl rfl
      · rename_i hne
        split
        · exact Or.inl rfl
        · rename_i p hp
          right
          have hmem := List.mem_of_find?_eq_some hp
          have hfresh := List.find?_some hp
          simp only [List.mem_map] at hmem
          obtain ⟨s, hs, rfl⟩ := hmem
          refine ⟨s, hs, ?_, ?_, ?_⟩
          · simpa [spilled, hform] using hne
          · simpa using hfresh
          · simp [spilled, hform]

theorem videoFormFile_inMemory (env : Env) (w : World) (r : Request) (h : spilled r = []) :
    (videoFormFile env w r).1 = w := by
  rcases videoFormFile_world env w r with h1 | ⟨s, -, hne, -⟩
  · exact h1
  · exact absurd h hne

theorem videoFormFile_some (env : Env) (w : World) (r : Request) (file : FilePart)
    (h : (videoFormFile env w r).2 = some file) :
    r.formLen ≤ maxUploadSize ∧ ∃ form, r.form = some form ∧ FormFile form "video" = some file := by
  revert h
  unfold videoFormFile
  repeat' split
  all_goals simp_all

theorem videoFormFile_result (env : Env) (w1 w : World) (r : Request) (h : w1.fs = w.fs) :
    (videoFormFile env w1 r).2 = (videoFormFile env w r).2 := by
  unfold videoFormFile
  rw [h]
  repeat' split
  all_goals simp_all

theorem filter_map_fresh (fs : List File) (p : String) (d : List Byte)
    (hfresh : ∀ f ∈ fs, f.path ≠ p) :
    ((fs ++ [(⟨p, []⟩ : File)]).map
      (fun (f : File) => if f.path = p then (⟨p, f.data ++ d⟩ : File) else f)).filter
      (fun f => f.path ≠ p) = fs := by
  induction fs with
  | nil => simp
  | cons a rest ih =>
    have ha : a.path ≠ p := hfresh a (List.mem_cons_self _ _)
    have := ih (fun f hf => hfresh f (List.mem_cons_of_mem _ hf))
    rw [List.cons_append, List.map_cons, if_neg ha, List.filter_cons, this]
    simp [ha]

theorem find_map_fresh (fs : List File) (p : String) (d : List Byte)
    (hfresh : ∀ f ∈ fs, f.path ≠ p) :
    ((fs ++ [(⟨p, []⟩ : File)]).map
      (fun (f : File) => if f.path = p then (⟨p, f.data ++ d⟩ : File) else f)).find?
      (fun f => f.path = p) = some ⟨p, d⟩ := by
  induction fs with
  | nil => simp
  | cons a rest ih =>
    have ha : a.path ≠ p := hfresh a (List.mem_cons_self _ _)
    have := ih (fun f hf => hfresh f (List.mem_cons_of_mem _ hf))
    rw [List.cons_append, List.map_cons, if_neg ha, List.find?_cons, this]
    simp [ha]

theorem callsDuring_eq (w : World) (out : Response × World) (l : List Call)
    (h : out.2.calls = w.calls ++ l) : callsDuring w out = l := by
  simp [callsDuring, h]

/-! ## The staged part of the video upload -/

theorem uploadStaged_fs (env : Env) (cfg : apiConfig) (w : World) (video : Video)
    (content : List Byte) (p : String) :
    (uploadStaged env cfg w video content p).2.fs = (ioCopy env w p content).1.fs := by
  simp only [uploadStaged]
  repeat' split
  all_goals simp [UpdateVideo_fs, PutObject_fs]

theorem uploadStaged_calls (env : Env) (cfg : apiConfig) (w : World) (video : Video)
    (content : List Byte) (p : String) :
    ∃ l, (uploadStaged env cfg w video content p).2.calls = w.calls ++ l ∧
      ∀ q, Call.CreateTemp q ∉ l := by
  simp only [uploadStaged]
  repeat' split
  · exact ⟨[Call.Copy p], by simp [ioCopy_calls]⟩
  · exact ⟨[Call.Copy p, Call.PutObject cfg.s3Bucket (fileKeyOf (randRead env 16).1)],
      by simp [ioCopy_calls, PutObject_calls]⟩
  · exact ⟨[Call.Copy p, Call.PutObject cfg.s3Bucket (fileKeyOf (randRead env 16).1),
      Call.UpdateVideo { video with
        VideoURL := some (s3URLOf cfg (fileKeyOf (randRead env 16).1)) }],
      by simp [ioCopy_calls, PutObject_calls, UpdateVideo_calls]⟩
  · exact ⟨[Call.Copy p, Call.PutObject cfg.s3Bucket (fileKeyOf (randRead env 16).1),
      Call.UpdateVideo { video with
        VideoURL := some (s3URLOf cfg (fileKeyOf (randRead env 16).1)) }],
      by simp [ioCopy_calls, PutObject_calls, UpdateVideo_calls]⟩

theorem staged_removed (env : Env) (cfg : apiConfig) (w1 : World) (video : Video)
    (content : List Byte) (p : String)
    (htemp : (osCreateTemp env w1).2 = some p) :
    (∀ f ∈ w1.fs, f.path ≠ p) ∧
    (env.removeFails = false →
      (osRemove env (uploadStaged env cfg (osCreateTemp env w1).1 video content p).2 p).fs =
        w1.fs) ∧
    ∃ l, (osRemove env (uploadStaged env cfg (osCreateTemp env w1).1 video content p).2 p).calls =
        w1.calls ++ ([Call.CreateTemp (some p)] ++ l ++ [Call.Remove p]) ∧
      ∀ q, Call.CreateTemp q ∉ l := by
  obtain ⟨hfs1, hfresh⟩ := osCreateTemp_some _ _ _ htemp
  obtain ⟨l, hl, hnot⟩ := uploadStaged_calls env cfg (osCreateTemp env w1).1 video content p
  refine ⟨hfresh, ?_, l, ?_, hnot⟩
  · intro hrm
    rw [osRemove_fs _ _ _ hrm, uploadStaged_fs]
    simp only [ioCopy, hfs1]
    exact filter_map_fresh w1.fs p _ hfresh
  · simp [osRemove_calls, hl, osCreateTemp_calls, htemp]

theorem uploadStaged_ok (env : Env) (cfg : apiConfig) (w : World) (video : Video)
    (content : List Byte) (p : String)
    (h : (uploadStaged env cfg w video content p).1.status = 200) :
    env.updateVideoFails = false ∧
    (ioCopy env w p content).2 = true ∧
    (uploadStaged env cfg w video content p).1 =
      ⟨200, Body.text (successBody (s3URLOf cfg (fileKeyOf (randRead env 16).1)))⟩ ∧
    (uploadStaged env cfg w video content p).2.db =
      w.db.map (fun x => if x.ID = video.ID then
        { video with VideoURL := some (s3URLOf cfg (fileKeyOf (randRead env 16).1)) } else x) ∧
    (uploadStaged env cfg w video content p).2.calls =
      w.calls ++ [Call.Copy p, Call.PutObject cfg.s3Bucket (fileKeyOf (randRead env 16).1),
        Call.UpdateVideo
          { video with VideoURL := some (s3URLOf cfg (fileKeyOf (randRead env 16).1)) }] ∧
    (⟨cfg.s3Bucket, fileKeyOf (randRead env 16).1, readFile (ioCopy env w p content).1 p,
        "video/mp4"⟩ : S3Object) ∈ (uploadStaged env cfg w video content p).2.s3 := by
  revert h
  simp only [uploadStaged]
  repeat' split
  all_goals try (simp [httpError, StatusInternalServerError]; done)
  rename_i h1 h2 h3
  intro _
  have hu : env.updateVideoFails = false := by simpa [UpdateVideo_ok] using h3
  refine ⟨hu, by simpa using h1, rfl, ?_, ?_, ?_⟩
  · simp [UpdateVideo_db, hu, PutObject_db, ioCopy_db]
  · simp [UpdateVideo_calls, PutObject_calls, ioCopy_calls]
  · rw [UpdateVideo_s3]
    exact PutObject_mem _ _ _ _ _ _ (by simpa using h2)

theorem uploadStaged_fail (env : Env) (cfg : apiConfig) (w : World) (video : Video)
    (content : List Byte) (p : String)
    (h : (uploadStaged env cfg w video content p).1.status ≠ 200) :
    (uploadStaged env cfg w video content p).2.db = w.db ∧
    ∃ l, (uploadStaged env cfg w video content p).2.calls = w.calls ++ l ∧
      ∀ v, Call.UpdateVideo v ∈ l → env.updateVideoFails = true := by
  revert h
  simp only [uploadStaged]
  repeat' split
  · intro _
    exact ⟨rfl, [Call.Copy p], by simp [ioCopy_calls]⟩
  · intro _
    exact ⟨by simp [PutObject_db, ioCopy_db],
      [Call.Copy p, Call.PutObject cfg.s3Bucket (fileKeyOf (randRead env 16).1)],
      by simp [ioCopy_calls, PutObject_calls], by simp⟩
  · rename_i h3
    intro _
    have hu : env.updateVideoFails = true := by simpa [UpdateVideo_ok] using h3
    exact ⟨by simp [UpdateVideo_db, hu, PutObject_db, ioCopy_db],
      [Call.Copy p, Call.PutObject cfg.s3Bucket (fileKeyOf (randRead env 16).1),
        Call.UpdateVideo
          { video with VideoURL := some (s3URLOf cfg (fileKeyOf (randRead env 16).1)) }],
      by simp [UpdateVideo_calls, ioCopy_calls, PutObject_calls], fun _ _ => hu⟩
  · simp [StatusOK]

/-! ## Successful and failed runs of the two handlers -/

theorem thumbnail_ok (env : Env) (cfg : apiConfig) (r : Request) (w : World)
    (h : (handlerUploadThumbnail env cfg r w).1.status = 200) :
    ∃ id token userID form fileHeader mediaType fileExt video,
      env.uuidParse r.videoID = some id ∧
      env.GetBearerToken r.header = some token ∧
      env.ValidateJWT token cfg.jwtSecret = some userID ∧
      r.form = some form ∧
      FormFile form "thumbnail" = some fileHeader ∧
      env.ParseMediaType fileHeader.contentType = some mediaType ∧
      fileExtOf mediaType = some fileExt ∧
      (GetVideo env w id).2 = some video ∧
      video.UserID = userID ∧
      env.updateVideoFails = false ∧
      (handlerUploadThumbnail env cfg r w).1 =
        respondWithJSON 200 { video with ThumbnailURL := some (
            thumbnailURLOf cfg (thumbnailFileName (randRead env 32).1 fileExt)) } ∧
      (handlerUploadThumbnail env cfg r w).2.db =
        w.db.map (fun x => if x.ID = video.ID then
          { video with ThumbnailURL := some (
            thumbnailURLOf cfg (thumbnailFileName (randRead env 32).1 fileExt)) } else x) ∧
      (handlerUploadThumbnail env cfg r w).2.calls = w.calls ++
        [Call.Create (env.filepathJoin cfg.assetsRoot
            (thumbnailFileName (randRead env 32).1 fileExt)),
          Call.Copy (env.filepathJoin cfg.assetsRoot
            (thumbnailFileName (randRead env 32).1 fileExt)),
          Call.GetVideo id,
          Call.UpdateVideo { video with ThumbnailURL := some (
            thumbnailURLOf cfg (thumbnailFileName (randRead env 32).1 fileExt)) }] ∧
      (⟨env.filepathJoin cfg.assetsRoot (thumbnailFileName (randRead env 32).1 fileExt),
        fileHeader.content⟩ : File) ∈ (handlerUploadThumbnail env cfg r w).2.fs := by
  revert h
  simp only [handlerUploadThumbnail]
  repeat' split
  all_goals try (simp [respondWithError, StatusBadRequest, StatusUnauthorized,
    StatusInternalServerError, StatusNotFound]; done)
  rename_i _ id hid _ token htok _ userID hjwt _ form hform _ fileHeader hfile _ mediaType hmt
    _ fileExt hext h1 h2 h3 _ video hget h4 h5
  intro _
  have hu : env.updateVideoFails = false := by simpa [UpdateVideo_ok] using h5
  have hget2 : (GetVideo env w id).2 = some video := by
    simpa [GetVideo_result, ioCopy_db, osCreate_db] using hget
  refine ⟨id, token, userID, form, fileHeader, mediaType, fileExt, video, hid, htok, hjwt,
    hform, hfile, hmt, hext, hget2, by simpa using h4, hu, rfl, ?_, ?_, ?_⟩
  · simp [UpdateVideo_db, hu, GetVideo_db, ioCopy_db, osCreate_db]
  · simp [UpdateVideo_calls, GetVideo_calls, ioCopy_calls, osCreate_calls]
  · rw [UpdateVideo_fs, GetVideo_fs]
    exact ioCopy_mem _ _ _ _ (by simpa using h3) (osCreate_mem _ _ _ (by simpa using h2))

theorem thumbnail_fail (env : Env) (cfg : apiConfig) (r : Request) (w : World)
    (h : (handlerUploadThumbnail env cfg r w).1.status ≠ 200) :
    (handlerUploadThumbnail env cfg r w).2.db = w.db ∧
    ∀ v, Call.UpdateVideo v ∈ callsDuring w (handlerUploadThumbnail env cfg r w) →
      env.updateVideoFails = true := by
  revert h
  simp only [handlerUploadThumbnail, callsDuring]
  repeat' split
  all_goals simp_all [osCreate_db, ioCopy_db, GetVideo_db, UpdateVideo_db, respondWithJSON,
    StatusOK, UpdateVideo_ok, UpdateVideo_calls, GetVideo_calls, ioCopy_calls, osCreate_calls]

theorem readFile_staged (env : Env) (w : World) (p : String) (content : List Byte)
    (htemp : (osCreateTemp env w).2 = some p)
    (hcopy : (ioCopy env (osCreateTemp env w).1 p content).2 = true) :
    readFile (ioCopy env (osCreateTemp env w).1 p content).1 p = content := by
  obtain ⟨hfs, hfresh⟩ := osCreateTemp_some _ _ _ htemp
  have hn : env.copyFault = none := by
    cases hc : env.copyFault with
    | none => rfl
    | some n => simp [ioCopy, hc] at hcopy
  simp only [readFile, ioCopy, hn, hfs]
  rw [find_map_fresh w.fs p content hfresh]

theorem videoFormFile_calls (env : Env) (w : World) (r : Request) :
    ∃ l, (videoFormFile env w r).1.calls = w.calls ++ l ∧
      ∀ c ∈ l, ∃ p, c = Call.MultipartTemp p := by
  rcases videoFormFile_world env w r with h | ⟨s, -, -, -, h⟩
  · exact ⟨[], by simp [h], by simp⟩
  · exact ⟨[Call.MultipartTemp (multipartPath env s)], by simp [h], by simp⟩

theorem parse_calls (env : Env) (w : World) (r : Request) (id : UUID) :
    ∃ l, (videoFormFile env (GetVideo env w id).1 r).1.calls = w.calls ++ l ∧
      Call.GetVideo id ∈ l ∧ (∀ v, Call.UpdateVideo v ∉ l) ∧
      (∀ b k, Call.PutObject b k ∉ l) ∧ (∀ q, Call.CreateTemp q ∉ l) := by
  obtain ⟨l, hl, hmt⟩ := videoFormFile_calls env (GetVideo env w id).1 r
  refine ⟨[Call.GetVideo id] ++ l, by simp [hl, GetVideo_calls], by simp, ?_, ?_, ?_⟩
  · intro v hv
    simp only [List.mem_append, List.mem_singleton, reduceCtorEq, false_or] at hv
    obtain ⟨p, hp⟩ := hmt _ hv
    cases hp
  · intro b k hv
    simp only [List.mem_append, List.mem_singleton, reduceCtorEq, false_or] at hv
    obtain ⟨p, hp⟩ := hmt _ hv
    cases hp
  · intro q hv
    simp only [List.mem_append, List.mem_singleton, reduceCtorEq, false_or] at hv
    obtain ⟨p, hp⟩ := hmt _ hv
    cases hp

theorem video_ok (env : Env) (cfg : apiConfig) (r : Request) (w : World)
    (h : (handlerUploadVideo env cfg r w).1.status = 200) :
    ∃ id token userID video form file,
      env.uuidParse r.videoID = some id ∧
      env.GetBearerToken r.header = some token ∧
      env.ValidateJWT token cfg.jwtSecret = some userID ∧
      (GetVideo env w id).2 = some video ∧
      video.UserID = userID ∧
      r.formLen ≤ maxUploadSize ∧
      r.form = some form ∧
      FormFile form "video" = some file ∧
      env.DetectContentType (fileRead env file.content 512).1 = "video/mp4" ∧
      env.updateVideoFails = false ∧
      (handlerUploadVideo env cfg r w).1 =
        ⟨200, Body.text (successBody (s3URLOf cfg (fileKeyOf (randRead env 16).1)))⟩ ∧
      (handlerUploadVideo env cfg r w).2.db =
        w.db.map (fun x => if x.ID = video.ID then
          { video with VideoURL := some (s3URLOf cfg (fileKeyOf (randRead env 16).1)) }
          else x) ∧
      Call.PutObject cfg.s3Bucket (fileKeyOf (randRead env 16).1) ∈
        callsDuring w (handlerUploadVideo env cfg r w) ∧
      Call.UpdateVideo
          { video with VideoURL := some (s3URLOf cfg (fileKeyOf (randRead env 16).1)) } ∈
        callsDuring w (handlerUploadVideo env cfg r w) ∧
      (⟨cfg.s3Bucket, fileKeyOf (randRead env 16).1, file.content, "video/mp4"⟩ : S3Object) ∈
        (handlerUploadVideo env cfg r w).2.s3 := by
  revert h
  simp only [handlerUploadVideo, callsDuring]
  repeat' split
  all_goals try (simp [respondWithError, httpError, StatusBadRequest, StatusUnauthorized,
    StatusInternalServerError]; done)
  rename_i _ id hid _ token htok _ userID hjwt _ video hget howner _ file hfile hread hmime
    _ tempName htemp
  intro h
  obtain ⟨hu, hcopy, hresp, hdb, hcalls, hs3⟩ := uploadStaged_ok _ _ _ _ _ _ h
  rw [readFile_staged _ _ _ _ htemp hcopy] at hs3
  obtain ⟨hlen, form, hform, hff⟩ := videoFormFile_some _ _ _ _ hfile
  obtain ⟨l, hl, -⟩ := videoFormFile_calls env (GetVideo env w id).1 r
  have hall : (osRemove env (uploadStaged env cfg
      (osCreateTemp env (videoFormFile env (GetVideo env w id).1 r).1).1 video file.content
      tempName).2 tempName).calls = w.calls ++ ([Call.GetVideo id] ++ l ++
        [Call.CreateTemp (some tempName), Call.Copy tempName,
          Call.PutObject cfg.s3Bucket (fileKeyOf (randRead env 16).1),
          Call.UpdateVideo
            { video with VideoURL := some (s3URLOf cfg (fileKeyOf (randRead env 16).1)) },
          Call.Remove tempName]) := by
    simp [osRemove_calls, hcalls, osCreateTemp_calls, htemp, hl, GetVideo_calls]
  refine ⟨id, token, userID, video, form, file, hid, htok, hjwt, hget, by simpa using howner,
    hlen, hform, hff, by simpa using hmime, hu, hresp, ?_, ?_, ?_, hs3⟩
  · simp [osRemove_db, hdb, osCreateTemp_db, videoFormFile_db, GetVideo_db]
  · show _ ∈ List.drop _ (osRemove env _ tempName).calls
    rw [hall, List.drop_left]
    simp
  · show _ ∈ List.drop _ (osRemove env _ tempName).calls
    rw [hall, List.drop_left]
    simp

theorem video_fail (env : Env) (cfg : apiConfig) (r : Request) (w : World)
    (h : (handlerUploadVideo env cfg r w).1.status ≠ 200) :
    (handlerUploadVideo env cfg r w).2.db = w.db ∧
    ∀ v, Call.UpdateVideo v ∈ callsDuring w (handlerUploadVideo env cfg r w) →
      env.updateVideoFails = true := by
  revert h
  simp only [handlerUploadVideo, callsDuring]
  repeat' split
  all_goals try (simp_all [GetVideo_db, GetVideo_calls]; done)
  · rename_i _ id hid _ token htok _ userID hjwt _ video hget howner _ hparse
    intro _
    obtain ⟨l, hl, -, hU, -, -⟩ := parse_calls env w r id
    refine ⟨by simp [videoFormFile_db, GetVideo_db], ?_⟩
    intro v hv
    simp only [hl, List.drop_left] at hv
    exact absurd hv (hU v)
  · rename_i _ id hid _ token htok _ userID hjwt _ video hget howner _ file hparse hread
    intro _
    obtain ⟨l, hl, -, hU, -, -⟩ := parse_calls env w r id
    refine ⟨by simp [videoFormFile_db, GetVideo_db], ?_⟩
    intro v hv
    simp only [hl, List.drop_left] at hv
    exact absurd hv (hU v)
  · rename_i _ id hid _ token htok _ userID hjwt _ video hget howner _ file hparse hread hmime
    intro _
    obtain ⟨l, hl, -, hU, -, -⟩ := parse_calls env w r id
    refine ⟨by simp [videoFormFile_db, GetVideo_db], ?_⟩
    intro v hv
    simp only [hl, List.drop_left] at hv
    exact absurd hv (hU v)
  · rename_i _ id hid _ token htok _ userID hjwt _ video hget howner _ file hparse hread hmime
      _ htemp
    intro _
    obtain ⟨l, hl, -, hU, -, -⟩ := parse_calls env w r id
    refine ⟨by simp [osCreateTemp_db, videoFormFile_db, GetVideo_db], ?_⟩
    intro v hv
    simp only [osCreateTemp_calls, hl, List.append_assoc, List.drop_left, List.mem_append,
      List.mem_singleton, reduceCtorEq, or_false] at hv
    exact absurd hv (hU v)
  · rename_i _ id hid _ token htok _ userID hjwt _ video hget howner _ file hparse hread hmime
      _ tempName htemp
    intro h
    obtain ⟨hdb, l2, hl2, hupd⟩ := uploadStaged_fail _ _ _ _ _ _ h
    obtain ⟨l, hl, -, hU, -, -⟩ := parse_calls env w r id
    refine ⟨by simp [osRemove_db, hdb, osCreateTemp_db, videoFormFile_db, GetVideo_db], ?_⟩
    intro v hv
    simp only [osRemove_calls, hl2, osCreateTemp_calls, hl, List.append_assoc,
      List.drop_left, List.mem_append, List.mem_singleton, List.mem_cons, reduceCtorEq,
      false_or, or_false, List.not_mem_nil] at hv
    rcases hv with hv | hv
    · exact absurd hv (hU v)
    · exact hupd v hv

/-! ## Shape of the runs of the video handler -/

theorem parse_world (env : Env) (w : World) (r : Request) (id : UUID) :
    ∃ l, (videoFormFile env (GetVideo env w id).1 r).1.calls = w.calls ++ l ∧
      (∀ q, Call.CreateTemp q ∉ l) ∧
      ((videoFormFile env (GetVideo env w id).1 r).1.fs = w.fs ∨
        ∃ s, s ∈ env.multipartNames ∧ spilled r ≠ [] ∧
          Call.MultipartTemp (multipartPath env s) ∈ l ∧
          (videoFormFile env (GetVideo env w id).1 r).1.fs =
            w.fs ++ [⟨multipartPath env s, spilledBytes (spilled r)⟩]) := by
  rcases videoFormFile_world env (GetVideo env w id).1 r with h | ⟨s, hs, hne, -, h⟩
  · exact ⟨[Call.GetVideo id], by simp [h, GetVideo_calls], by simp,
      Or.inl (by simp [h, GetVideo_fs])⟩
  · exact ⟨[Call.GetVideo id, Call.MultipartTemp (multipartPath env s)],
      by simp [h, GetVideo_calls], by simp,
      Or.inr ⟨s, hs, hne, by simp, by simp [h, GetVideo_fs]⟩⟩

theorem video_rejected (env : Env) (cfg : apiConfig) (r : Request) (w : World)
    (form : List FilePart) (file : FilePart)
    (hform : r.form = some form)
    (hfile : FormFile form "video" = some file)
    (hsniff : env.DetectContentType (fileRead env file.content 512).1 ≠ "video/mp4") :
    (handlerUploadVideo env cfg r w).2 = w ∨
    (∃ id, (handlerUploadVideo env cfg r w).2 = (GetVideo env w id).1) ∨
    ∃ id, (handlerUploadVideo env cfg r w).2 = (videoFormFile env (GetVideo env w id).1 r).1 := by
  simp only [handlerUploadVideo]
  repeat' split
  all_goals first
    | exact Or.inl rfl
    | exact Or.inr (Or.inl ⟨_, rfl⟩)
    | exact Or.inr (Or.inr ⟨_, rfl⟩)
    | (exfalso
       obtain ⟨-, form2, hf2, hff2⟩ :=
         videoFormFile_some _ _ _ _ ‹(videoFormFile _ _ _).2 = some _›
       simp_all)

theorem video_shape (env : Env) (cfg : apiConfig) (r : Request) (w : World) :
    ∃ (W : World) (l0 : List Call), W.calls = w.calls ++ l0 ∧ (∀ q, Call.CreateTemp q ∉ l0) ∧
      (W.fs = w.fs ∨
        ∃ s, s ∈ env.multipartNames ∧ spilled r ≠ [] ∧
          Call.MultipartTemp (multipartPath env s) ∈ l0 ∧
          W.fs = w.fs ++ [⟨multipartPath env s, spilledBytes (spilled r)⟩]) ∧
      (((handlerUploadVideo env cfg r w).2.fs = W.fs ∧
          ∃ l1, (handlerUploadVideo env cfg r w).2.calls = W.calls ++ l1 ∧
            ∀ p, Call.CreateTemp (some p) ∉ l1) ∨
        ∃ t, (∀ f ∈ W.fs, File.path f ≠ t) ∧
          (env.removeFails = false → (handlerUploadVideo env cfg r w).2.fs = W.fs) ∧
          ∃ l2, (handlerUploadVideo env cfg r w).2.calls =
              W.calls ++ ([Call.CreateTemp (some t)] ++ l2 ++ [Call.Remove t]) ∧
            ∀ q, Call.CreateTemp q ∉ l2) := by
  simp only [handlerUploadVideo]
  repeat' split
  · exact ⟨w, [], by simp, by simp, Or.inl rfl, Or.inl ⟨rfl, [], by simp, by simp⟩⟩
  · exact ⟨w, [], by simp, by simp, Or.inl rfl, Or.inl ⟨rfl, [], by simp, by simp⟩⟩
  · exact ⟨w, [], by simp, by simp, Or.inl rfl, Or.inl ⟨rfl, [], by simp, by simp⟩⟩
  · rename_i _ id hid _ token htok _ userID hjwt _ hget
    exact ⟨w, [], by simp, by simp, Or.inl rfl,
      Or.inl ⟨rfl, [Call.GetVideo id], by simp [GetVideo_calls], by simp⟩⟩
  · rename_i _ id hid _ token htok _ userID hjwt _ video hget howner
    exact ⟨w, [], by simp, by simp, Or.inl rfl,
      Or.inl ⟨rfl, [Call.GetVideo id], by simp [GetVideo_calls], by simp⟩⟩
  · rename_i _ id hid _ token htok _ userID hjwt _ video hget howner _ hparse
    obtain ⟨l, hl, hl0, hfs⟩ := parse_world env w r id
    exact ⟨_, l, hl, hl0, hfs, Or.inl ⟨rfl, [], by simp, by simp⟩⟩
  · rename_i _ id hid _ token htok _ userID hjwt _ video hget howner _ file hparse hread
    obtain ⟨l, hl, hl0, hfs⟩ := parse_world env w r id
    exact ⟨_, l, hl, hl0, hfs, Or.inl ⟨rfl, [], by simp, by simp⟩⟩
  · rename_i _ id hid _ token htok _ userID hjwt _ video hget howner _ file hparse hread hmime
    obtain ⟨l, hl, hl0, hfs⟩ := parse_world env w r id
    exact ⟨_, l, hl, hl0, hfs, Or.inl ⟨rfl, [], by simp, by simp⟩⟩
  · rename_i _ id hid _ token htok _ userID hjwt _ video hget howner _ file hparse hread hmime
      _ htemp
    obtain ⟨l, hl, hl0, hfs⟩ := parse_world env w r id
    exact ⟨_, l, hl, hl0, hfs,
      Or.inl ⟨osCreateTemp_none _ _ htemp, [Call.CreateTemp none],
        by simp [osCreateTemp_calls, htemp], by simp⟩⟩
  · rename_i _ id hid _ token htok _ userID hjwt _ video hget howner _ file hparse hread hmime
      _ tempName htemp
    obtain ⟨l, hl, hl0, hfs⟩ := parse_world env w r id
    obtain ⟨hfresh, hrm, l2, hc, hl2⟩ :=
      staged_removed env cfg (videoFormFile env (GetVideo env w id).1 r).1 video file.content
        tempName htemp
    exact ⟨_, l, hl, hl0, hfs, Or.inr ⟨tempName, hfresh, hrm, l2, hc, hl2⟩⟩

theorem video_not_mp4 (env : Env) (cfg : apiConfig) (r : Request) (w : World)
    (id : UUID) (token : String) (userID : UUID) (video : Video) (file : FilePart)
    (hid : env.uuidParse r.videoID = some id)
    (htok : env.GetBearerToken r.header = some token)
    (hjwt : env.ValidateJWT token cfg.jwtSecret = some userID)
    (hget : (GetVideo env w id).2 = some video)
    (howner : video.UserID = userID)
    (hparse : (videoFormFile env w r).2 = some file)
    (hread : (fileRead env file.content 512).2 = true)
    (hsniff : env.DetectContentType (fileRead env file.content 512).1 ≠ "video/mp4") :
    handlerUploadVideo env cfg r w =
      (⟨400, Body.text "Invalid file type, must be MP4\n"⟩,
        (videoFormFile env (GetVideo env w id).1 r).1) := by
  have hres := videoFormFile_result env (GetVideo env w id).1 w r (GetVideo_fs env w id)
  rw [hparse] at hres
  simp [handlerUploadVideo, hid, htok, hjwt, hget, howner, hres, hread, hsniff, httpError,
    StatusBadRequest]

/-! ## The large upload -/

theorem largeBytes_length : largeBytes.length = 32 * 2 ^ 20 + 1 := List.length_replicate _ _

theorem spilledParts_largeUpload : spilledParts defaultMaxMemory [⟨"video", "large.bin", "video/mp4", largeBytes⟩] =
      [⟨"video", "large.bin", "video/mp4", largeBytes⟩] := by
  have h : largeBytes.length > defaultMaxMemory := by
    rw [largeBytes_length]
    unfold defaultMaxMemory
    omega
  simp only [spilledParts, h, if_true]

theorem formLen_largeUpload : ¬ largeUpload.formLen > maxUploadSize := by
  show ¬ (32 * 2 ^ 20 + 1024 > 2 ^ 30)
  norm_num

theorem multipartName_fresh : (sampleEnv.multipartNames.map (multipartPath sampleEnv)).find?
      (fun p => !(([] : List File).any (fun f => f.path = p))) = some "/tmp/multipart-5678" := by
  decide

theorem FormFile_largeUpload : FormFile [⟨"video", "large.bin", "video/mp4", largeBytes⟩] "video" =
    some ⟨"video", "large.bin", "video/mp4", largeBytes⟩ := by
  unfold FormFile
  rw [List.find?_cons_of_pos]
  decide

theorem videoFormFile_largeUpload (W : World) (hW : W.fs = []) : videoFormFile sampleEnv W largeUpload =
      ({ W with fs := [⟨"/tmp/multipart-5678", largeBytes⟩],
                calls := W.calls ++ [Call.MultipartTemp "/tmp/multipart-5678"] },
        some ⟨"video", "large.bin", "video/mp4", largeBytes⟩) := by
  unfold videoFormFile
  rw [if_neg formLen_largeUpload]
  have hform : largeUpload.form = some [⟨"video", "large.bin", "video/mp4", largeBytes⟩] := rfl
  rw [hform]
  dsimp only
  rw [spilledParts_largeUpload, hW, multipartName_fresh, FormFile_largeUpload]
  dsimp only [List.isEmpty_cons]
  rw [if_neg (by decide)]
  simp only [spilledBytes, List.append_nil, List.nil_append]

theorem fileRead_largeBytes_ok : (fileRead sampleEnv largeBytes 512).2 = true := by
  have h : largeBytes.isEmpty = false := by
    rw [List.isEmpty_eq_false]
    intro h0
    have := congrArg List.length h0
    rw [largeBytes_length] at this
    simp at this
  have h2 : sampleEnv.readFails = false := rfl
  simp only [fileRead, h, h2, Bool.not_false, Bool.and_self]

theorem getD_largeBytes (i : Nat) : largeBytes.getD i 0 = 0 := by
  unfold largeBytes
  rw [List.getD_eq_getElem?_getD, List.getElem?_replicate]
  split <;> rfl

theorem fileRead_largeBytes : (fileRead sampleEnv largeBytes 512).1 = (List.range 512).map (fun _ => 0) := by
  simp only [fileRead, getD_largeBytes]

set_option maxRecDepth 100000

theorem largeBytes_not_mp4 : sampleEnv.DetectContentType (fileRead sampleEnv largeBytes 512).1 ≠
      "video/mp4" := by
  rw [fileRead_largeBytes]
  decide

/-! ## File names, URLs and renamed uploads -/

theorem FormFile_rename (rename : FilePart → String) (form : List FilePart) (key : String) :
    FormFile (form.map (fun p => { p with filename := rename p })) key =
      (FormFile form key).map (fun p => { p with filename := rename p }) := by
  induction form with
  | nil => rfl
  | cons a rest ih =>
    simp only [FormFile, List.map_cons, List.find?_cons] at ih ⊢
    by_cases ha : a.field = key
    · simp [ha]
    · simp [ha, ih]

theorem thumbnail_rename (env : Env) (cfg : apiConfig) (r : Request) (w : World)
    (rename : FilePart → String) :
    handlerUploadThumbnail env cfg (renameFiles rename r) w =
      handlerUploadThumbnail env cfg r w := by
  simp only [handlerUploadThumbnail, renameFiles]
  cases hf : r.form with
  | none => simp
  | some form =>
    simp only [Option.map_some', FormFile_rename]
    cases hp : FormFile form "thumbnail" with
    | none => simp
    | some p => simp

theorem url_ne_empty (cfg : apiConfig) (name : String) :
    "http://localhost:" ++ cfg.port ++ "/assets/" ++ name ≠ "" := by
  intro h
  have := congrArg String.length h
  simp only [String.length_append] at this
  have h17 : "http://localhost:".length = 17 := by decide
  have h0 : "".length = 0 := rfl
  omega

theorem url_png (cfg : apiConfig) (b : String) :
    ∃ pre, "http://localhost:" ++ cfg.port ++ "/assets/" ++ (b ++ ".png") = pre ++ ".png" :=
  ⟨"http://localhost:" ++ cfg.port ++ "/assets/" ++ b, by simp [String.append_assoc]⟩

theorem fileExtOf_some (mediaType fileExt : String) (h : fileExtOf mediaType = some fileExt) :
    (mediaType = "image/png" ∧ fileExt = ".png") ∨
      (mediaType = "image/jpeg" ∧ fileExt = ".jpg") := by
  unfold fileExtOf at h
  split at h
  · left; exact ⟨‹_›, by simpa using h.symm⟩
  · split at h
    · right; exact ⟨‹_›, by simpa using h.symm⟩
    · cases h

/-! ## The claims -/

/-- C1 (as amended): a request that lacks a valid bearer token (the header carries no
token, or the token fails JWT validation) leaves the world untouched in both
handlers: the filesystem, the record store and the blob store are unchanged and no
call at all is made (no file is created, GetVideo, UpdateVideo and PutObject are
never called); and when the path video ID parses, both handlers answer 401. -/
theorem C1_unauthenticated_request (env : Env) (cfg : apiConfig) (r : Request) (w : World)
    (h : env.GetBearerToken r.header = none ∨
      ∃ token, env.GetBearerToken r.header = some token ∧
        env.ValidateJWT token cfg.jwtSecret = none) :
    ((handlerUploadThumbnail env cfg r w).2 = w ∧
      callsDuring w (handlerUploadThumbnail env cfg r w) = []) ∧
    ((handlerUploadVideo env cfg r w).2 = w ∧
      callsDuring w (handlerUploadVideo env cfg r w) = []) ∧
    (∀ id, env.uuidParse r.videoID = some id →
      (handlerUploadThumbnail env cfg r w).1.status = 401 ∧
      (handlerUploadVideo env cfg r w).1.status = 401) := by
  unfold handlerUploadThumbnail handlerUploadVideo callsDuring
  rcases h with h | ⟨token, h1, h2⟩
  · cases hu : env.uuidParse r.videoID <;> simp [h, respondWithError, StatusUnauthorized]
  · cases hu : env.uuidParse r.videoID <;> simp [h1, h2, respondWithError, StatusUnauthorized]

/-- C1, witness: a thumbnail and a video upload with a well-formed ID and no
`Authorization` token are answered 401 and leave the sample world as it was. -/
theorem C1_unauthenticated_request_witness :
    sampleEnv.GetBearerToken (thumbnailRequest sampleID "" "image/png").header = none ∧
    (handlerUploadThumbnail sampleEnv sampleCfg
      (thumbnailRequest sampleID "" "image/png") sampleWorld).2 = sampleWorld ∧
    (handlerUploadThumbnail sampleEnv sampleCfg
      (thumbnailRequest sampleID "" "image/png") sampleWorld).1.status = 401 :=
  ⟨by decide,
    (C1_unauthenticated_request sampleEnv sampleCfg (thumbnailRequest sampleID "" "image/png")
      sampleWorld (Or.inl (by decide))).1.1,
    ((C1_unauthenticated_request sampleEnv sampleCfg (thumbnailRequest sampleID "" "image/png")
      sampleWorld (Or.inl (by decide))).2.2 7 (by decide)).1⟩

/-- C1, counterexample: a request without any bearer token whose path video ID is
malformed is answered 400 by both handlers, not 401. -/
theorem C1_counterexample_malformed_id :
    sampleEnv.GetBearerToken (thumbnailRequest "not-a-uuid" "" "image/png").header = none ∧
    (handlerUploadThumbnail sampleEnv sampleCfg
      (thumbnailRequest "not-a-uuid" "" "image/png") sampleWorld).1.status = 400 ∧
    sampleEnv.GetBearerToken (videoRequest "not-a-uuid" "" mp4Bytes).header = none ∧
    (handlerUploadVideo sampleEnv sampleCfg
      (videoRequest "not-a-uuid" "" mp4Bytes) sampleWorld).1.status = 400 := by
  decide

/-- C2: when the user the bearer token resolves to differs from the owner of the
record the store returns for the request's video ID, then (thumbnail handler) a run
that fetched the record answers 401, and no run calls UpdateVideo or changes the
record store; (video handler) the run fetches the record, answers 401, never calls
UpdateVideo and leaves the record store unchanged. -/
theorem C2_non_owner_unauthorized (env : Env) (cfg : apiConfig) (r : Request) (w : World)
    (id : UUID) (token : String) (userID : UUID) (video : Video)
    (hid : env.uuidParse r.videoID = some id)
    (htok : env.GetBearerToken r.header = some token)
    (hjwt : env.ValidateJWT token cfg.jwtSecret = some userID)
    (hfetch : (GetVideo env w id).2 = some video)
    (hne : video.UserID ≠ userID) :
    ((Call.GetVideo id ∈ callsDuring w (handlerUploadThumbnail env cfg r w) →
        (handlerUploadThumbnail env cfg r w).1.status = 401) ∧
      (∀ v, Call.UpdateVideo v ∉ callsDuring w (handlerUploadThumbnail env cfg r w)) ∧
      (handlerUploadThumbnail env cfg r w).2.db = w.db) ∧
    (Call.GetVideo id ∈ callsDuring w (handlerUploadVideo env cfg r w) ∧
      (handlerUploadVideo env cfg r w).1.status = 401 ∧
      (∀ v, Call.UpdateVideo v ∉ callsDuring w (handlerUploadVideo env cfg r w)) ∧
      (handlerUploadVideo env cfg r w).2.db = w.db) := by
  constructor
  · simp only [handlerUploadThumbnail, callsDuring, hid, htok, hjwt]
    repeat' split
    all_goals simp_all [GetVideo_result, GetVideo_calls, GetVideo_db, ioCopy_db, ioCopy_calls,
      osCreate_db, osCreate_calls, respondWithError, StatusUnauthorized]
  · simp only [handlerUploadVideo, callsDuring, hid, htok, hjwt, hfetch]
    simp [hne, GetVideo_calls, GetVideo_db, httpError, StatusUnauthorized]

/-- C2, witness: bob (user 2) uploads a PNG thumbnail and an MP4 video for the record
of alice (user 1); both runs fetch the record and answer 401. -/
theorem C2_non_owner_unauthorized_witness :
    Call.GetVideo 7 ∈ callsDuring sampleWorld (handlerUploadThumbnail sampleEnv sampleCfg
      (thumbnailRequest sampleID "Bearer bob-token" "image/png") sampleWorld) ∧
    (handlerUploadThumbnail sampleEnv sampleCfg
      (thumbnailRequest sampleID "Bearer bob-token" "image/png") sampleWorld).1.status = 401 ∧
    (handlerUploadThumbnail sampleEnv sampleCfg
      (thumbnailRequest sampleID "Bearer bob-token" "image/png") sampleWorld).2.db =
        sampleWorld.db :=
  ⟨by decide,
    (C2_non_owner_unauthorized sampleEnv sampleCfg
      (thumbnailRequest sampleID "Bearer bob-token" "image/png") sampleWorld 7 "bob-token" 2
      ⟨7, 1, none, none⟩ (by decide) (by decide) (by decide) (by decide) (by decide)).1.1
      (by decide),
    (C2_non_owner_unauthorized sampleEnv sampleCfg
      (thumbnailRequest sampleID "Bearer bob-token" "image/png") sampleWorld 7 "bob-token" 2
      ⟨7, 1, none, none⟩ (by decide) (by decide) (by decide) (by decide) (by decide)).1.2.2⟩

/-- C3, the code at the failing input: bob (user 2), with a valid token, uploads a JPEG
thumbnail for the record of alice (user 1) on an empty disk.  The answer is 401 and
the record store is unchanged, but the run has created and written the file
`./assets/<base64>.jpg` before it fetched the record and compared the owner. -/
theorem C3_non_owner_upload_leaves_file :
    sampleWorld.fs = [] ∧
    (handlerUploadThumbnail sampleEnv sampleCfg
      (thumbnailRequest sampleID "Bearer bob-token" "image/jpeg") sampleWorld).1 =
        ⟨401, Body.errorJSON "You do not have permission to modify this video"⟩ ∧
    (handlerUploadThumbnail sampleEnv sampleCfg
      (thumbnailRequest sampleID "Bearer bob-token" "image/jpeg") sampleWorld).2.db =
        sampleWorld.db ∧
    (handlerUploadThumbnail sampleEnv sampleCfg
      (thumbnailRequest sampleID "Bearer bob-token" "image/jpeg") sampleWorld).2.fs =
        [⟨"./assets/AAECAwQFBgcICQoLDA0ODxAREhMUFRYXGBkaGxwdHv8.jpg", [1, 2, 3]⟩] ∧
    callsDuring sampleWorld (handlerUploadThumbnail sampleEnv sampleCfg
      (thumbnailRequest sampleID "Bearer bob-token" "image/jpeg") sampleWorld) =
        [Call.Create "./assets/AAECAwQFBgcICQoLDA0ODxAREhMUFRYXGBkaGxwdHv8.jpg",
          Call.Copy "./assets/AAECAwQFBgcICQoLDA0ODxAREhMUFRYXGBkaGxwdHv8.jpg",
          Call.GetVideo 7] := by
  decide

/-- C4 (as amended): a thumbnail upload whose declared media type, parsed from the
part's Content-Type header, is neither image/png nor image/jpeg makes no disk write:
the world is unchanged and no call is made, with or without a valid token; and when
the request carries a valid bearer token the answer is 400, which for a well-formed
video ID is the validation error "Unsupported file type". -/
theorem C4_unsupported_media_type (env : Env) (cfg : apiConfig) (r : Request) (w : World)
    (form : List FilePart) (fileHeader : FilePart) (mediaType : String)
    (hform : r.form = some form)
    (hfile : FormFile form "thumbnail" = some fileHeader)
    (hmt : env.ParseMediaType fileHeader.contentType = some mediaType)
    (hpng : mediaType ≠ "image/png") (hjpeg : mediaType ≠ "image/jpeg") :
    (handlerUploadThumbnail env cfg r w).2 = w ∧
    callsDuring w (handlerUploadThumbnail env cfg r w) = [] ∧
    (∀ token userID, env.GetBearerToken r.header = some token →
      env.ValidateJWT token cfg.jwtSecret = some userID →
      (handlerUploadThumbnail env cfg r w).1.status = 400 ∧
      (∀ id, env.uuidParse r.videoID = some id →
        (handlerUploadThumbnail env cfg r w).1 =
          ⟨400, Body.errorJSON "Unsupported file type"⟩)) := by
  have hext : fileExtOf mediaType = none := by simp [fileExtOf, hpng, hjpeg]
  unfold handlerUploadThumbnail callsDuring
  cases hu : env.uuidParse r.videoID <;> cases ht : env.GetBearerToken r.header
  all_goals try (cases hv : env.ValidateJWT ‹String› cfg.jwtSecret)
  all_goals simp_all [respondWithError, StatusBadRequest]

/-- C4, witness: alice uploads a `text/plain` thumbnail for her record; the answer is
the 400 validation error and the sample world is unchanged. -/
theorem C4_unsupported_media_type_witness :
    sampleEnv.ParseMediaType "text/plain" = some "text/plain" ∧
    (handlerUploadThumbnail sampleEnv sampleCfg
      (thumbnailRequest sampleID "Bearer alice-token" "text/plain") sampleWorld).2 =
        sampleWorld ∧
    (handlerUploadThumbnail sampleEnv sampleCfg
      (thumbnailRequest sampleID "Bearer alice-token" "text/plain") sampleWorld).1 =
        ⟨400, Body.errorJSON "Unsupported file type"⟩ :=
  ⟨by decide,
    (C4_unsupported_media_type sampleEnv sampleCfg
      (thumbnailRequest sampleID "Bearer alice-token" "text/plain") sampleWorld
      [⟨"thumbnail", "cat.gif", "text/plain", [1, 2, 3]⟩]
      ⟨"thumbnail", "cat.gif", "text/plain", [1, 2, 3]⟩ "text/plain"
      (by decide) (by decide) (by decide) (by decide) (by decide)).1,
    ((C4_unsupported_media_type sampleEnv sampleCfg
      (thumbnailRequest sampleID "Bearer alice-token" "text/plain") sampleWorld
      [⟨"thumbnail", "cat.gif", "text/plain", [1, 2, 3]⟩]
      ⟨"thumbnail", "cat.gif", "text/plain", [1, 2, 3]⟩ "text/plain"
      (by decide) (by decide) (by decide) (by decide) (by decide)).2.2
      "alice-token" 1 (by decide) (by decide)).2 7 (by decide)⟩

/-- C4, counterexample: a thumbnail upload with the unsupported declared media type
`text/plain`, a well-formed video ID and no bearer token is answered 401, not 400. -/
theorem C4_counterexample_without_token :
    FormFile [⟨"thumbnail", "cat.gif", "text/plain", [1, 2, 3]⟩] "thumbnail" =
      some ⟨"thumbnail", "cat.gif", "text/plain", [1, 2, 3]⟩ ∧
    sampleEnv.ParseMediaType "text/plain" = some "text/plain" ∧
    (handlerUploadThumbnail sampleEnv sampleCfg
      (thumbnailRequest sampleID "" "text/plain") sampleWorld).1.status = 401 := by
  decide

/-- C5 (as amended): a video upload whose content type sniffed from the first 512
bytes of the file is not exactly "video/mp4" never reaches the blob store: PutObject
and UpdateVideo are never called (the blob store and the record store are unchanged),
whoever sends it; and when the request has a well-formed video ID and a valid bearer
token of the owner of the existing record, the answer is 400, which is the
validation error "Invalid file type, must be MP4" whenever the form parses and the
file can be read. -/
theorem C5_not_mp4_rejected (env : Env) (cfg : apiConfig) (r : Request) (w : World)
    (form : List FilePart) (file : FilePart)
    (hform : r.form = some form)
    (hfile : FormFile form "video" = some file)
    (hsniff : env.DetectContentType (fileRead env file.content 512).1 ≠ "video/mp4") :
    (∀ bucket key, Call.PutObject bucket key ∉ callsDuring w (handlerUploadVideo env cfg r w)) ∧
    (∀ v, Call.UpdateVideo v ∉ callsDuring w (handlerUploadVideo env cfg r w)) ∧
    (handlerUploadVideo env cfg r w).2.s3 = w.s3 ∧
    (handlerUploadVideo env cfg r w).2.db = w.db ∧
    (∀ id token userID video, env.uuidParse r.videoID = some id →
      env.GetBearerToken r.header = some token →
      env.ValidateJWT token cfg.jwtSecret = some userID →
      (GetVideo env w id).2 = some video → video.UserID = userID →
      (handlerUploadVideo env cfg r w).1.status = 400 ∧
      ((videoFormFile env w r).2 = some file → (fileRead env file.content 512).2 = true →
        (handlerUploadVideo env cfg r w).1 =
          ⟨400, Body.text "Invalid file type, must be MP4\n"⟩)) := by
  refine ⟨?_, ?_, ?_, ?_, ?_⟩
  · intro bucket key
    rcases video_rejected env cfg r w form file hform hfile hsniff with h | ⟨id, h⟩ | ⟨id, h⟩
    · simp [callsDuring, h]
    · simp [callsDuring, h, GetVideo_calls]
    · obtain ⟨l, hl, -, -, hP, -⟩ := parse_calls env w r id
      simp only [callsDuring, h, hl, List.drop_left]
      exact hP bucket key
  · intro v
    rcases video_rejected env cfg r w form file hform hfile hsniff with h | ⟨id, h⟩ | ⟨id, h⟩
    · simp [callsDuring, h]
    · simp [callsDuring, h, GetVideo_calls]
    · obtain ⟨l, hl, -, hU, -, -⟩ := parse_calls env w r id
      simp only [callsDuring, h, hl, List.drop_left]
      exact hU v
  · rcases video_rejected env cfg r w form file hform hfile hsniff with h | ⟨id, h⟩ | ⟨id, h⟩
    · rw [h]
    · rw [h, GetVideo_s3]
    · rw [h, videoFormFile_s3, GetVideo_s3]
  · rcases video_rejected env cfg r w form file hform hfile hsniff with h | ⟨id, h⟩ | ⟨id, h⟩
    · rw [h]
    · rw [h, GetVideo_db]
    · rw [h, videoFormFile_db, GetVideo_db]
  · intro id token userID video hid htok hjwt hget howner
    have hres := videoFormFile_result env (GetVideo env w id).1 w r (GetVideo_fs env w id)
    simp only [handlerUploadVideo, hid, htok, hjwt, hget, howner, ne_eq, not_true_eq_false,
      if_false, hres]
    cases hv : (videoFormFile env w r).2 with
    | none => simp [httpError, StatusBadRequest]
    | some f =>
      obtain ⟨-, form2, hf2, hff2⟩ := videoFormFile_some _ _ _ _ hv
      have hf : f = file := by
        rw [hform] at hf2
        cases hf2
        rw [hfile] at hff2
        exact (Option.some.inj hff2).symm
      subst hf
      by_cases hread : (fileRead env f.content 512).2 = false
      · simp [hread, httpError, StatusBadRequest]
      · simp [hread, hsniff, httpError, StatusBadRequest]

/-- C5, witness: alice uploads a PDF as the video of her record; the answer is the 400
validation error and the blob store stays empty. -/
theorem C5_not_mp4_rejected_witness :
    sampleEnv.DetectContentType (fileRead sampleEnv pdfBytes 512).1 = "application/pdf" ∧
    (handlerUploadVideo sampleEnv sampleCfg
      (videoRequest sampleID "Bearer alice-token" pdfBytes) sampleWorld).2.s3 = sampleWorld.s3 ∧
    (handlerUploadVideo sampleEnv sampleCfg
      (videoRequest sampleID "Bearer alice-token" pdfBytes) sampleWorld).1 =
        ⟨400, Body.text "Invalid file type, must be MP4\n"⟩ :=
  ⟨by decide,
    (C5_not_mp4_rejected sampleEnv sampleCfg
      (videoRequest sampleID "Bearer alice-token" pdfBytes) sampleWorld
      [⟨"video", "cat.mp4", "video/mp4", pdfBytes⟩] ⟨"video", "cat.mp4", "video/mp4", pdfBytes⟩
      (by decide) (by decide) (by decide)).2.2.1,
    ((C5_not_mp4_rejected sampleEnv sampleCfg
      (videoRequest sampleID "Bearer alice-token" pdfBytes) sampleWorld
      [⟨"video", "cat.mp4", "video/mp4", pdfBytes⟩] ⟨"video", "cat.mp4", "video/mp4", pdfBytes⟩
      (by decide) (by decide) (by decide)).2.2.2.2
      7 "alice-token" 1 ⟨7, 1, none, none⟩ (by decide) (by decide) (by decide) (by decide)
      (by decide)).2 (by decide) (by decide)⟩

/-- C5, counterexample: a video upload whose file sniffs as `application/pdf`, sent with
a well-formed video ID but without a bearer token, is answered 401, not 400; the
same upload sent by bob, who does not own the record, is answered 401 as well. -/
theorem C5_counterexample_without_token :
    sampleEnv.DetectContentType (fileRead sampleEnv pdfBytes 512).1 = "application/pdf" ∧
    (handlerUploadVideo sampleEnv sampleCfg
      (videoRequest sampleID "" pdfBytes) sampleWorld).1.status = 401 ∧
    (handlerUploadVideo sampleEnv sampleCfg
      (videoRequest sampleID "Bearer bob-token" pdfBytes) sampleWorld).1.status = 401 := by
  decide

/-- C6: a handler run writes the URL field of a stored record exactly when it ends in
the 200 response.  For each handler: the answer is 200 iff the run made an UpdateVideo
call that the store accepted; a run that does not end in 200 leaves the record store
as it was; a run that ends in 200 was made by the authenticated owner of the
record, and afterwards the stored record is the fetched one with its ThumbnailURL
(thumbnail handler) or VideoURL (video handler) set to the new URL. -/
theorem C6_url_set_iff_success (env : Env) (cfg : apiConfig) (r : Request) (w : World) :
    (((handlerUploadThumbnail env cfg r w).1.status = 200 ↔
        (∃ v, Call.UpdateVideo v ∈ callsDuring w (handlerUploadThumbnail env cfg r w)) ∧
          env.updateVideoFails = false) ∧
      ((handlerUploadThumbnail env cfg r w).1.status ≠ 200 →
        (handlerUploadThumbnail env cfg r w).2.db = w.db) ∧
      ((handlerUploadThumbnail env cfg r w).1.status = 200 →
        ∃ id token userID video url,
          env.uuidParse r.videoID = some id ∧
          env.GetBearerToken r.header = some token ∧
          env.ValidateJWT token cfg.jwtSecret = some userID ∧
          w.db.find? (fun v => v.ID = id) = some video ∧
          video.UserID = userID ∧
          (handlerUploadThumbnail env cfg r w).2.db.find? (fun v => v.ID = id) =
            some { video with ThumbnailURL := some url } ∧
          (handlerUploadThumbnail env cfg r w).2.db =
            w.db.map (fun x => if x.ID = id then { video with ThumbnailURL := some url }
              else x))) ∧
    (((handlerUploadVideo env cfg r w).1.status = 200 ↔
        (∃ v, Call.UpdateVideo v ∈ callsDuring w (handlerUploadVideo env cfg r w)) ∧
          env.updateVideoFails = false) ∧
      ((handlerUploadVideo env cfg r w).1.status ≠ 200 →
        (handlerUploadVideo env cfg r w).2.db = w.db) ∧
      ((handlerUploadVideo env cfg r w).1.status = 200 →
        ∃ id token userID video url,
          env.uuidParse r.videoID = some id ∧
          env.GetBearerToken r.header = some token ∧
          env.ValidateJWT token cfg.jwtSecret = some userID ∧
          w.db.find? (fun v => v.ID = id) = some video ∧
          video.UserID = userID ∧
          (handlerUploadVideo env cfg r w).2.db.find? (fun v => v.ID = id) =
            some { video with VideoURL := some url } ∧
          (handlerUploadVideo env cfg r w).2.db =
            w.db.map (fun x => if x.ID = id then { video with VideoURL := some url }
              else x))) := by
  refine ⟨⟨⟨?_, ?_⟩, fun h => (thumbnail_fail env cfg r w h).1, ?_⟩,
    ⟨⟨?_, ?_⟩, fun h => (video_fail env cfg r w h).1, ?_⟩⟩
  · intro h
    obtain ⟨id, token, userID, form, fileHeader, mediaType, fileExt, video, -, -, -, -, -, -,
      -, -, -, hu, -, -, hcalls, -⟩ := thumbnail_ok env cfg r w h
    rw [callsDuring_eq w _ _ hcalls]
    exact ⟨⟨_, List.mem_of_mem_getLast? rfl⟩, hu⟩
  · rintro ⟨⟨v, hv⟩, hu⟩
    by_contra hne
    have := (thumbnail_fail env cfg r w hne).2 v hv
    simp [hu] at this
  · intro h
    obtain ⟨id, token, userID, form, fileHeader, mediaType, fileExt, video, hid, htok, hjwt,
      -, -, -, -, hget, howner, -, -, hdb, -, -⟩ := thumbnail_ok env cfg r w h
    obtain ⟨hfind, hvid⟩ := GetVideo_some env w id video hget
    refine ⟨id, token, userID, video,
      thumbnailURLOf cfg (thumbnailFileName (randRead env 32).1 fileExt),
      hid, htok, hjwt, hfind, howner, ?_, ?_⟩
    · rw [hdb]
      exact find_map_replace w.db id video
        { video with ThumbnailURL := some (thumbnailURLOf cfg
            (thumbnailFileName (randRead env 32).1 fileExt)) } hfind hvid
    · rw [hdb, hvid]
  · intro h
    obtain ⟨id, token, userID, video, form, file, -, -, -, -, -, -, -, -, -, hu, -, -, -, hupd,
      -⟩ := video_ok env cfg r w h
    exact ⟨⟨_, hupd⟩, hu⟩
  · rintro ⟨⟨v, hv⟩, hu⟩
    by_contra hne
    have := (video_fail env cfg r w hne).2 v hv
    simp [hu] at this
  · intro h
    obtain ⟨id, token, userID, video, form, file, hid, htok, hjwt, hget, howner, -, -, -, -, -,
      -, hdb, -, -, -⟩ := video_ok env cfg r w h
    obtain ⟨hfind, hvid⟩ := GetVideo_some env w id video hget
    refine ⟨id, token, userID, video, s3URLOf cfg (fileKeyOf (randRead env 16).1),
      hid, htok, hjwt, hfind, howner, ?_, ?_⟩
    · rw [hdb]
      exact find_map_replace w.db id video
        { video with VideoURL := some (s3URLOf cfg (fileKeyOf (randRead env 16).1)) } hfind hvid
    · rw [hdb, hvid]

/-- C7 (as amended): on every exit path of handlerUploadVideo, whenever the run
created its temporary file, that path was fresh, the run called os.Remove on it
before returning, and when os.Remove succeeds no file of that path exists when the
handler returns.  When os.Remove succeeds, the files after the call are the files
before the call, plus at most the one `multipart-*` file that the form parser wrote
for the parts it could not keep in memory and that the handler does not remove; for
an upload whose parts all fit in memory they are exactly the files before the
call. -/
theorem C7_temp_file_removed (env : Env) (cfg : apiConfig) (r : Request) (w : World) :
    (∀ p, Call.CreateTemp (some p) ∈ callsDuring w (handlerUploadVideo env cfg r w) →
      (∀ f ∈ w.fs, f.path ≠ p) ∧
      Call.Remove p ∈ callsDuring w (handlerUploadVideo env cfg r w) ∧
      (env.removeFails = false → ∀ f ∈ (handlerUploadVideo env cfg r w).2.fs, f.path ≠ p)) ∧
    (env.removeFails = false →
      (handlerUploadVideo env cfg r w).2.fs = w.fs ∨
      ∃ s, s ∈ env.multipartNames ∧ spilled r ≠ [] ∧
        Call.MultipartTemp (multipartPath env s) ∈
          callsDuring w (handlerUploadVideo env cfg r w) ∧
        (handlerUploadVideo env cfg r w).2.fs =
          w.fs ++ [⟨multipartPath env s, spilledBytes (spilled r)⟩]) ∧
    (env.removeFails = false → spilled r = [] →
      (handlerUploadVideo env cfg r w).2.fs = w.fs) := by
  obtain ⟨W, l0, hWc, hW0, hWfs, hrest⟩ := video_shape env cfg r w
  have hsub : ∀ f ∈ w.fs, f ∈ W.fs := by
    intro f hf
    rcases hWfs with h | ⟨s, -, -, -, h⟩
    · rw [h]; exact hf
    · rw [h]; exact List.mem_append_left _ hf
  have hB : env.removeFails = false →
      (handlerUploadVideo env cfg r w).2.fs = w.fs ∨
      ∃ s, s ∈ env.multipartNames ∧ spilled r ≠ [] ∧
        Call.MultipartTemp (multipartPath env s) ∈
          callsDuring w (handlerUploadVideo env cfg r w) ∧
        (handlerUploadVideo env cfg r w).2.fs =
          w.fs ++ [⟨multipartPath env s, spilledBytes (spilled r)⟩] := by
    intro hrm
    have hfs : (handlerUploadVideo env cfg r w).2.fs = W.fs := by
      rcases hrest with ⟨hfs, -⟩ | ⟨t, -, hfs, -⟩
      · exact hfs
      · exact hfs hrm
    have hmem : ∀ c ∈ l0, c ∈ callsDuring w (handlerUploadVideo env cfg r w) := by
      intro c hc
      rcases hrest with ⟨-, l1, hc1, -⟩ | ⟨t, -, -, l2, hc2, -⟩
      · simp only [callsDuring, hc1, hWc, List.append_assoc, List.drop_left]
        exact List.mem_append_left _ hc
      · simp only [callsDuring, hc2, hWc, List.append_assoc, List.drop_left]
        exact List.mem_append_left _ hc
    rcases hWfs with h | ⟨s, hs, hne, hmt, h⟩
    · exact Or.inl (hfs.trans h)
    · exact Or.inr ⟨s, hs, hne, hmem _ hmt, hfs.trans h⟩
  refine ⟨?_, hB, ?_⟩
  · intro p hp
    rcases hrest with ⟨-, l1, hc1, hl1⟩ | ⟨t, hfresh, hfs, l2, hc2, hl2⟩
    · simp only [callsDuring, hc1, hWc, List.append_assoc, List.drop_left,
        List.mem_append] at hp
      rcases hp with hp | hp
      · exact absurd hp (hW0 _)
      · exact absurd hp (hl1 p)
    · simp only [callsDuring, hc2, hWc, List.append_assoc, List.drop_left, List.mem_append,
        List.mem_singleton, Call.CreateTemp.injEq, Option.some.injEq, reduceCtorEq,
        or_false] at hp ⊢
      rcases hp with hp | hp | hp
      · exact absurd hp (hW0 _)
      · subst hp
        refine ⟨fun f hf => hfresh f (hsub f hf), by simp, ?_⟩
        intro hrm f hf
        rw [hfs hrm] at hf
        exact hfresh f hf
      · exact absurd hp (hl2 _)
  · intro hrm hsp
    rcases hB hrm with h | ⟨s, -, hne, -, -⟩
    · exact h
    · exact absurd hsp hne

/-- C7, witness: alice uploads a small MP4 for her record on an empty disk; the run
creates `/tmp/tubely-upload-1234.mp4`, removes it, and leaves the disk empty. -/
theorem C7_temp_file_removed_witness :
    Call.CreateTemp (some "/tmp/tubely-upload-1234.mp4") ∈
      callsDuring sampleWorld (handlerUploadVideo sampleEnv sampleCfg
        (videoRequest sampleID "Bearer alice-token" mp4Bytes) sampleWorld) ∧
    Call.Remove "/tmp/tubely-upload-1234.mp4" ∈
      callsDuring sampleWorld (handlerUploadVideo sampleEnv sampleCfg
        (videoRequest sampleID "Bearer alice-token" mp4Bytes) sampleWorld) ∧
    (handlerUploadVideo sampleEnv sampleCfg
      (videoRequest sampleID "Bearer alice-token" mp4Bytes) sampleWorld).2.fs = sampleWorld.fs :=
  ⟨by decide,
    ((C7_temp_file_removed sampleEnv sampleCfg
      (videoRequest sampleID "Bearer alice-token" mp4Bytes) sampleWorld).1
      "/tmp/tubely-upload-1234.mp4" (by decide)).2.1,
    (C7_temp_file_removed sampleEnv sampleCfg
      (videoRequest sampleID "Bearer alice-token" mp4Bytes) sampleWorld).2.2
      (by decide) (by decide)⟩

/-- C7, counterexample: on an empty disk, (1) alice uploads a file of 32 MiB and one
byte that is no MP4: the answer is the 400 validation error and the parser's file
`/tmp/multipart-5678` with the upload is on disk when the handler returns; (2) alice
uploads a small MP4 while os.Remove fails: the answer is 200 and the handler's
temporary file `/tmp/tubely-upload-1234.mp4` is still on disk. -/
theorem C7_counterexample_files_left :
    sampleWorld.fs = [] ∧
    (handlerUploadVideo sampleEnv sampleCfg largeUpload sampleWorld).1 =
      ⟨400, Body.text "Invalid file type, must be MP4\n"⟩ ∧
    (handlerUploadVideo sampleEnv sampleCfg largeUpload sampleWorld).2.fs =
      [⟨"/tmp/multipart-5678", largeBytes⟩] ∧
    (handlerUploadVideo removeFailsEnv sampleCfg
      (videoRequest sampleID "Bearer alice-token" mp4Bytes) sampleWorld).1.status = 200 ∧
    (handlerUploadVideo removeFailsEnv sampleCfg
      (videoRequest sampleID "Bearer alice-token" mp4Bytes) sampleWorld).2.fs =
      [⟨"/tmp/tubely-upload-1234.mp4", mp4Bytes⟩] := by
  have hrun := video_not_mp4 sampleEnv sampleCfg largeUpload sampleWorld 7 "alice-token" 1
    ⟨7, 1, none, none⟩ ⟨"video", "large.bin", "video/mp4", largeBytes⟩
    (by decide) (by decide) (by decide) (by decide) (by decide)
    (by rw [videoFormFile_largeUpload sampleWorld rfl]) fileRead_largeBytes_ok
    largeBytes_not_mp4
  refine ⟨rfl, ?_, ?_, by decide, by decide⟩
  · rw [hrun]
  · rw [hrun, videoFormFile_largeUpload _ rfl]

/-- C8: a video upload answered 200, with bucket B, region R and the 16 bytes b of the
random buffer: b has 16 bytes and hex(b) is 32 characters, each a lowercase
hexadecimal digit; the key is "videos/" ++ hex(b) ++ ".mp4"; PutObject was called with
B and that key and the blob store holds the uploaded file under it as video/mp4; U is
"https://" ++ B ++ ".s3." ++ R ++ ".amazonaws.com/" ++ key; the response is 200 with
the body {"message": "Video uploaded successfully", "s3_url": "U"}; and the stored
record is the fetched one with VideoURL set to U. -/
theorem C8_video_success (env : Env) (cfg : apiConfig) (r : Request) (w : World)
    (h : (handlerUploadVideo env cfg r w).1.status = 200) :
    ∃ b hex key U form file id video,
      b = (randRead env 16).1 ∧ b.length = 16 ∧
      hex = hexEncodeToString b ∧ hex.data.length = 32 ∧
      (∀ c ∈ hex.data, isLowerHexChar c = true) ∧
      key = "videos/" ++ hex ++ ".mp4" ∧
      U = "https://" ++ cfg.s3Bucket ++ ".s3." ++ cfg.s3Region ++ ".amazonaws.com/" ++ key ∧
      Call.PutObject cfg.s3Bucket key ∈ callsDuring w (handlerUploadVideo env cfg r w) ∧
      r.formLen ≤ maxUploadSize ∧ r.form = some form ∧ FormFile form "video" = some file ∧
      (⟨cfg.s3Bucket, key, file.content, "video/mp4"⟩ : S3Object) ∈
        (handlerUploadVideo env cfg r w).2.s3 ∧
      (handlerUploadVideo env cfg r w).1 = ⟨200, Body.text
        ("\x7b\"message\": \"Video uploaded successfully\", \"s3_url\": \"" ++ U ++ "\"\x7d")⟩ ∧
      env.uuidParse r.videoID = some id ∧
      w.db.find? (fun v => v.ID = id) = some video ∧
      Call.UpdateVideo { video with VideoURL := some U } ∈
        callsDuring w (handlerUploadVideo env cfg r w) ∧
      (handlerUploadVideo env cfg r w).2.db.find? (fun v => v.ID = id) =
        some { video with VideoURL := some U } := by
  obtain ⟨id, token, userID, video, form, file, hid, htok, hjwt, hget, howner, hlen, hform,
    hfile, -, -, hresp, hdb, hput, hupd, hs3⟩ := video_ok env cfg r w h
  obtain ⟨hfind, hvid⟩ := GetVideo_some env w id video hget
  refine ⟨(randRead env 16).1, hexEncodeToString (randRead env 16).1,
    fileKeyOf (randRead env 16).1, s3URLOf cfg (fileKeyOf (randRead env 16).1), form, file, id,
    video, rfl, randRead_length env 16, rfl, ?_, ?_, rfl, rfl, hput, hlen, hform, hfile, hs3,
    hresp,
    hid, hfind, hupd, ?_⟩
  · simp [hexEncodeToString, hexEncode_length, randRead_length]
  · exact hexEncode_lower _
  · rw [hdb]
    exact find_map_replace w.db id video
      { video with VideoURL := some (s3URLOf cfg (fileKeyOf (randRead env 16).1)) } hfind hvid

/-- C8, witness: alice uploads an MP4 for her record; the answer is 200 and the
object lands under the key built from the 16 random bytes 00 01 .. 0f. -/
theorem C8_video_success_witness :
    (handlerUploadVideo sampleEnv sampleCfg
      (videoRequest sampleID "Bearer alice-token" mp4Bytes) sampleWorld).1.status = 200 ∧
    ∃ U, (handlerUploadVideo sampleEnv sampleCfg
      (videoRequest sampleID "Bearer alice-token" mp4Bytes) sampleWorld).1 = ⟨200, Body.text
        ("\x7b\"message\": \"Video uploaded successfully\", \"s3_url\": \"" ++ U ++ "\"\x7d")⟩ :=
  ⟨by decide,
    by
      obtain ⟨b, hex, key, U, form, file, id, video, -, -, -, -, -, -, -, -, -, -, -, -,
        hresp, -⟩ :=
        C8_video_success sampleEnv sampleCfg
          (videoRequest sampleID "Bearer alice-token" mp4Bytes) sampleWorld (by decide)
      exact ⟨U, hresp⟩⟩

/-- C9: a thumbnail upload answered 200, with the 32 bytes b of the random buffer and
the declared media type t: t is image/png or image/jpeg; the file name is the
unpadded URL-safe base64 encoding of b, which has 43 characters, each in A-Z a-z 0-9
'-' '_', followed by ".png" for image/png and ".jpg" for image/jpeg; a file of that
name under the assets root holds the upload; the response body is the updated
record, which is also the stored one, and its thumbnail URL is
"http://localhost:<port>/assets/<file name>", is not empty, and for image/png ends
in ".png"; and replacing the client-supplied file names of the request changes
nothing in what the handler does. -/
theorem C9_thumbnail_success (env : Env) (cfg : apiConfig) (r : Request) (w : World)
    (h : (handlerUploadThumbnail env cfg r w).1.status = 200) :
    (∃ b form fileHeader t ext fileName url id video,
      b = (randRead env 32).1 ∧ b.length = 32 ∧
      r.form = some form ∧ FormFile form "thumbnail" = some fileHeader ∧
      env.ParseMediaType fileHeader.contentType = some t ∧
      ((t = "image/png" ∧ ext = ".png") ∨ (t = "image/jpeg" ∧ ext = ".jpg")) ∧
      (base64RawURLEncodeToString b).data.length = 43 ∧
      (∀ c ∈ (base64RawURLEncodeToString b).data, isURLSafeChar c = true) ∧
      fileName = base64RawURLEncodeToString b ++ ext ∧
      (⟨env.filepathJoin cfg.assetsRoot fileName, fileHeader.content⟩ : File) ∈
        (handlerUploadThumbnail env cfg r w).2.fs ∧
      url = "http://localhost:" ++ cfg.port ++ "/assets/" ++ fileName ∧
      url ≠ "" ∧
      (t = "image/png" → ∃ pre, url = pre ++ ".png") ∧
      env.uuidParse r.videoID = some id ∧
      w.db.find? (fun v => v.ID = id) = some video ∧
      (handlerUploadThumbnail env cfg r w).1 =
        ⟨200, Body.videoJSON { video with ThumbnailURL := some url }⟩ ∧
      (handlerUploadThumbnail env cfg r w).2.db.find? (fun v => v.ID = id) =
        some { video with ThumbnailURL := some url }) ∧
    (∀ rename : FilePart → String,
      handlerUploadThumbnail env cfg (renameFiles rename r) w =
        handlerUploadThumbnail env cfg r w) := by
  refine ⟨?_, thumbnail_rename env cfg r w⟩
  obtain ⟨id, token, userID, form, fileHeader, mediaType, fileExt, video, hid, htok, hjwt,
    hform, hfile, hmt, hext, hget, howner, hu, hresp, hdb, hcalls, hfs⟩ :=
    thumbnail_ok env cfg r w h
  obtain ⟨hfind, hvid⟩ := GetVideo_some env w id video hget
  have hcases := fileExtOf_some mediaType fileExt hext
  refine ⟨(randRead env 32).1, form, fileHeader, mediaType, fileExt,
    thumbnailFileName (randRead env 32).1 fileExt,
    thumbnailURLOf cfg (thumbnailFileName (randRead env 32).1 fileExt), id, video,
    rfl, randRead_length env 32, hform, hfile, hmt, hcases, ?_, ?_, rfl, hfs, rfl,
    url_ne_empty cfg _, ?_, hid, hfind, hresp, ?_⟩
  · simp [base64RawURLEncodeToString, b64Encode_length, randRead_length]
  · exact b64Encode_safe _
  · intro hpng
    rcases hcases with ⟨-, rfl⟩ | ⟨hj, -⟩
    · exact url_png cfg _
    · rw [hpng] at hj
      exact absurd hj (by decide)
  · rw [hdb]
    exact find_map_replace w.db id video
      { video with ThumbnailURL := some (thumbnailURLOf cfg
          (thumbnailFileName (randRead env 32).1 fileExt)) } hfind hvid

/-- C9, witness: alice uploads a PNG thumbnail named `cat.gif` for her record; the
answer is 200, the body is the updated record with a non-empty thumbnail URL, and
renaming the uploaded file changes nothing. -/
theorem C9_thumbnail_success_witness :
    (handlerUploadThumbnail sampleEnv sampleCfg
      (thumbnailRequest sampleID "Bearer alice-token" "image/png") sampleWorld).1.status = 200 ∧
    (∃ (url : String) (video : Video), url ≠ "" ∧
      (handlerUploadThumbnail sampleEnv sampleCfg
        (thumbnailRequest sampleID "Bearer alice-token" "image/png") sampleWorld).1 =
          ⟨200, Body.videoJSON { video with ThumbnailURL := some url }⟩) ∧
    (∀ rename : FilePart → String,
      handlerUploadThumbnail sampleEnv sampleCfg
        (renameFiles rename (thumbnailRequest sampleID "Bearer alice-token" "image/png"))
        sampleWorld =
      handlerUploadThumbnail sampleEnv sampleCfg
        (thumbnailRequest sampleID "Bearer alice-token" "image/png") sampleWorld) :=
  ⟨by decide,
    by
      obtain ⟨b, form, fileHeader, t, ext, fileName, url, id, video, -, -, -, -, -, -, -, -, -,
        -, -, hne, -, -, -, hresp, -⟩ :=
        (C9_thumbnail_success sampleEnv sampleCfg
          (thumbnailRequest sampleID "Bearer alice-token" "image/png") sampleWorld
          (by decide)).1
      exact ⟨url, video, hne, hresp⟩,
    (C9_thumbnail_success sampleEnv sampleCfg
      (thumbnailRequest sampleID "Bearer alice-token" "image/png") sampleWorld (by decide)).2⟩

/-- C10: generated names and keys do not collide for distinct random inputs: two
distinct 16-byte values give different video keys "videos/<hex>.mp4"; two distinct
32-byte values give different thumbnail file names (unpadded URL-safe base64 plus
extension), whatever the two extensions; and both constructions are injective in
the random bytes. -/
theorem C10_names_do_not_collide :
    (∀ b1 b2 : List Byte, b1.length = 16 → b2.length = 16 → b1 ≠ b2 →
      "videos/" ++ hexEncodeToString b1 ++ ".mp4" ≠ "videos/" ++ hexEncodeToString b2 ++ ".mp4") ∧
    (∀ (b1 b2 : List Byte) (ext1 ext2 : String), b1.length = 32 → b2.length = 32 → b1 ≠ b2 →
      base64RawURLEncodeToString b1 ++ ext1 ≠ base64RawURLEncodeToString b2 ++ ext2) ∧
    Function.Injective fileKeyOf ∧
    (∀ ext, Function.Injective (fun b => thumbnailFileName b ext)) := by
  refine ⟨?_, ?_, fileKeyOf_injective, thumbnailFileName_injective⟩
  · intro b1 b2 _ _ hne h
    exact hne (fileKeyOf_injective h)
  · intro b1 b2 ext1 ext2 h1 h2 hne
    exact thumbnailFileName_ne b1 b2 ext1 ext2 (h1.trans h2.symm) hne

/-- C10, witness: the 16-byte values 00 .. 0e 0f and 00 .. 0e 10 give different keys. -/
theorem C10_names_do_not_collide_witness :
    fileKeyOf [0, 1, 2, 3, 4, 5, 6, 7, 8, 9, 10, 11, 12, 13, 14, 15] ≠
      fileKeyOf [0, 1, 2, 3, 4, 5, 6, 7, 8, 9, 10, 11, 12, 13, 14, 16] :=
  C10_names_do_not_collide.1 [0, 1, 2, 3, 4, 5, 6, 7, 8, 9, 10, 11, 12, 13, 14, 15]
    [0, 1, 2, 3, 4, 5, 6, 7, 8, 9, 10, 11, 12, 13, 14, 16] (by decide) (by decide) (by decide)

end Tubely
